import Mathlib

/-!
rayTracer: a shallow embedding of `code.cpp`.

The C++ program computes over `float`.  The embedding idealises `float` as an arbitrary
linearly ordered field `α` (exact arithmetic, no rounding, no NaN), and takes the `<cmath>`
functions the program calls (`sqrtf`, `powf`, `tan`, the constant `M_PI`) as a parameter
`CMath α`.  Every definition is computable: instantiated at `ℚ` it can be evaluated.
Theorems that depend on `sqrtf` being a square root say so with the hypothesis `ExactSqrt`.
A division by zero has the value `0` of the field convention, where `float` gives an
infinity or NaN. The `int` and `size_t` arithmetic of `render` is modelled on `Int` and `Nat`
with explicit wrap-around (`int_wrap`, `to_size_t`, `slot_index`).
-/

namespace RayTracer

/-- The functions and constants of `<cmath>` and `<limits>` used by `code.cpp`. -/
structure CMath (α : Type) where
  /-- Square root: `sqrtf`, `std::sqrt`. -/
  sqrtf : α → α
  /-- Power: `powf`. -/
  powf : α → α → α
  /-- Tangent: `tan`. -/
  tan : α → α
  /-- The constant `M_PI`. -/
  M_PI : α

/-- The square root of the library is exact on the non-negative scalars. -/
def ExactSqrt {α : Type} [LinearOrderedField α] (m : CMath α) : Prop :=
  ∀ x : α, 0 ≤ x → 0 ≤ m.sqrtf x ∧ m.sqrtf x * m.sqrtf x = x

/-- Modelled from the spec: `Vec3f` of the header `geometry.h`, which is not part of the
sources: a 3-component real tuple. -/
structure Vec3 (α : Type) where
  x : α
  y : α
  z : α
deriving DecidableEq, Repr

/-- Modelled from the spec: `Vec4f` of the header `geometry.h`: a 4-component real tuple. -/
structure Vec4 (α : Type) where
  x : α
  y : α
  z : α
  w : α
deriving DecidableEq, Repr

section Algebra

variable {α : Type} [LinearOrderedField α]

/-- Modelled from the spec: the default constructor `Vec3f()` of `geometry.h`, the zero
vector. -/
def Vec3.zero : Vec3 α := ⟨0, 0, 0⟩

/-- Modelled from the spec: vector addition `a + b` of `geometry.h`. -/
def Vec3.add (a b : Vec3 α) : Vec3 α := ⟨a.x + b.x, a.y + b.y, a.z + b.z⟩

/-- Modelled from the spec: vector subtraction `a - b` of `geometry.h`. -/
def Vec3.sub (a b : Vec3 α) : Vec3 α := ⟨a.x - b.x, a.y - b.y, a.z - b.z⟩

/-- Modelled from the spec: unary minus `-a` of `geometry.h`. -/
def Vec3.neg (a : Vec3 α) : Vec3 α := ⟨-a.x, -a.y, -a.z⟩

/-- Modelled from the spec: scalar scale `a * s` of `geometry.h`. -/
def Vec3.scale (a : Vec3 α) (s : α) : Vec3 α := ⟨a.x * s, a.y * s, a.z * s⟩

/-- Modelled from the spec: dot product `a * b` of `geometry.h`. -/
def Vec3.dot (a b : Vec3 α) : α := a.x * b.x + a.y * b.y + a.z * b.z

/-- Modelled from the spec: Euclidean norm `a.norm()` of `geometry.h`. -/
def Vec3.norm (m : CMath α) (a : Vec3 α) : α := m.sqrtf (a.x * a.x + a.y * a.y + a.z * a.z)

/-- Modelled from the spec: `a.normalize()` of `geometry.h`, the vector scaled by the
inverse of its norm. -/
def Vec3.normalize (m : CMath α) (a : Vec3 α) : Vec3 α := a.scale (1 / a.norm m)

/-- Modelled from the spec: indexed component access `a[i]` of `geometry.h` on `Vec3f`. -/
def Vec3.get (a : Vec3 α) (i : Nat) : α :=
  match i with
  | 0 => a.x
  | 1 => a.y
  | _ => a.z

/-- Modelled from the spec: indexed component access `a[i]` of `geometry.h` on `Vec4f`. -/
def Vec4.get (a : Vec4 α) (i : Nat) : α :=
  match i with
  | 0 => a.x
  | 1 => a.y
  | 2 => a.z
  | _ => a.w

end Algebra

/-- The `struct Light`. -/
structure Light (α : Type) where
  position : Vec3 α
  intensity : α

/-- The `struct Material`. -/
structure Material (α : Type) where
  refractive_index : α
  albedo : Vec4 α
  diffuse_color : Vec3 α
  specular_exponent : α

/-- The `struct Sphere`. -/
structure Sphere (α : Type) where
  center : Vec3 α
  radius : α
  material : Material α

section Core

variable {α : Type} [LinearOrderedField α]

/-- The default constructor `Material()`. -/
def Material.default : Material α :=
  { refractive_index := 1, albedo := ⟨1, 0, 0, 0⟩, diffuse_color := Vec3.zero,
    specular_exponent := 0 }

/-- `Sphere::ray_intersect`: `none` is `return false`, `some t0` is `return true` with the
out-parameter `t0`. -/
def Sphere.ray_intersect (m : CMath α) (s : Sphere α) (orig dir : Vec3 α) : Option α :=
  let L := s.center.sub orig
  let tca := L.dot dir
  let d2 := L.dot L - tca * tca
  if d2 > s.radius * s.radius then none
  else
    let thc := m.sqrtf (s.radius * s.radius - d2)
    let t0 := tca - thc
    let t1 := tca + thc
    let t0 := if t0 < 0 then t1 else t0
    if t0 < 0 then none else some t0

/-- The local `tca` of `Sphere::ray_intersect`. -/
def Sphere.tca (s : Sphere α) (orig dir : Vec3 α) : α := (s.center.sub orig).dot dir

/-- The local `d2` of `Sphere::ray_intersect`. -/
def Sphere.d2 (s : Sphere α) (orig dir : Vec3 α) : α :=
  (s.center.sub orig).dot (s.center.sub orig) - s.tca orig dir * s.tca orig dir

/-- The local `thc` of `Sphere::ray_intersect`. -/
def Sphere.thc (m : CMath α) (s : Sphere α) (orig dir : Vec3 α) : α :=
  m.sqrtf (s.radius * s.radius - s.d2 orig dir)

/-- The function `reflect`. -/
def reflect (I N : Vec3 α) : Vec3 α :=
  I.sub ((N.scale 2).scale (I.dot N))

/-- The local `cosi` of `refract`. -/
def refract_cosi (I N : Vec3 α) : α := -max (-1) (min 1 (I.dot N))

/-- The local `k` of `refract`, from `eta` and `cosi`. -/
def refract_k (eta cosi : α) : α := 1 - eta * eta * (1 - cosi * cosi)

/-- The body of `refract` after the test `cosi < 0`. -/
def refract_body (m : CMath α) (I N : Vec3 α) (eta_t eta_i : α) : Vec3 α :=
  let cosi := refract_cosi I N
  let eta := eta_i / eta_t
  let k := refract_k eta cosi
  if k < 0 then ⟨1, 0, 0⟩ else (I.scale eta).add (N.scale (eta * cosi - m.sqrtf k))

/-- The function `refract` (Snell's law); the call of the source leaves `eta_i` at its
default `1`. -/
def refract (m : CMath α) (I N : Vec3 α) (eta_t : α) (eta_i : α) : Vec3 α :=
  if refract_cosi I N < 0 then refract m I N.neg eta_i eta_t
  else refract_body m I N eta_t eta_i
termination_by (if refract_cosi I N < 0 then 1 else 0 : Nat)
decreasing_by
  rename_i h
  have hd : I.dot N.neg = -I.dot N := by simp only [Vec3.dot, Vec3.neg]; ring
  have hc : ¬ refract_cosi I N.neg < 0 := by
    revert h
    unfold refract_cosi
    rw [hd]
    generalize I.dot N = d
    simp only [min_def, max_def]
    split_ifs <;> intro h <;> linarith
  rw [if_pos h, if_neg hc]
  exact Nat.zero_lt_one

/-- The value of the local `k` in the call of `refract` that reaches the last `return`:
the call itself when its `cosi` is not negative, otherwise the recursive call on `-N` with
the two indices swapped. -/
def refract_final_k (I N : Vec3 α) (eta_t eta_i : α) : α :=
  if refract_cosi I N < 0 then refract_k (eta_t / eta_i) (refract_cosi I N.neg)
  else refract_k (eta_i / eta_t) (refract_cosi I N)

/-- The function `refract` instrumented: the number of calls `refract` makes to itself,
following the same branches. -/
def refract_calls (I N : Vec3 α) (eta_t : α) (eta_i : α) : Nat :=
  if refract_cosi I N < 0 then 1 + refract_calls I N.neg eta_i eta_t
  else 0
termination_by (if refract_cosi I N < 0 then 1 else 0 : Nat)
decreasing_by
  rename_i h
  have hd : I.dot N.neg = -I.dot N := by simp only [Vec3.dot, Vec3.neg]; ring
  have hc : ¬ refract_cosi I N.neg < 0 := by
    revert h
    unfold refract_cosi
    rw [hd]
    generalize I.dot N = d
    simp only [min_def, max_def]
    split_ifs <;> intro h <;> linarith
  rw [if_pos h, if_neg hc]
  exact Nat.zero_lt_one

/-- The constant `std::numeric_limits<float>::max()`. -/
def FLT_MAX : α := 340282346638528859811704183484516925440

/-- The state of the loop of `scene_intersect`: the local `spheres_dist` and the three
out-parameters `hit`, `N`, `material`. -/
structure SceneHit (α : Type) where
  spheres_dist : α
  hit : Vec3 α
  N : Vec3 α
  material : Material α

/-- One iteration of the loop of `scene_intersect`, on the sphere `s`. -/
def scene_intersect_step (m : CMath α) (orig dir : Vec3 α) (st : SceneHit α) (s : Sphere α) :
    SceneHit α :=
  match s.ray_intersect m orig dir with
  | some dist_i =>
    if dist_i < st.spheres_dist then
      let hit := orig.add (dir.scale dist_i)
      { spheres_dist := dist_i, hit := hit, N := (hit.sub s.center).normalize m,
        material := s.material }
    else st
  | none => st

/-- The function `scene_intersect` up to its `return`: the loop over the spheres, started
with the values `hit`, `N`, `material` the caller holds in the out-parameters. -/
def scene_intersect (m : CMath α) (orig dir : Vec3 α) (spheres : List (Sphere α))
    (hit N : Vec3 α) (material : Material α) : SceneHit α :=
  spheres.foldl (scene_intersect_step m orig dir)
    { spheres_dist := FLT_MAX, hit := hit, N := N, material := material }

/-- The value `scene_intersect` returns: `spheres_dist < 1000`. -/
def SceneHit.found (st : SceneHit α) : Bool := decide (st.spheres_dist < 1000)

/-- The background colour `Vec3f(0.2, 0.7, 0.8)` of `cast_ray`. -/
def background : Vec3 α := ⟨0.2, 0.7, 0.8⟩

/-- The origin of a secondary ray in `cast_ray`: the point moved by `1e-3` along the
normal, to the side the direction `d` points to. -/
def offset_orig (d point N : Vec3 α) : Vec3 α :=
  if d.dot N < 0 then point.sub (N.scale 1e-3) else point.add (N.scale 1e-3)

/-- One iteration of the loop over the lights in `cast_ray`; the pair is
`(diffuse_light_intensity, specular_light_intensity)`. -/
def light_step (m : CMath α) (spheres : List (Sphere α)) (dir point N : Vec3 α)
    (material : Material α) (acc : α × α) (l : Light α) : α × α :=
  let light_dir := (l.position.sub point).normalize m
  let light_distance := (l.position.sub point).norm m
  let shadow_orig := offset_orig light_dir point N
  let sh := scene_intersect m shadow_orig light_dir spheres Vec3.zero Vec3.zero Material.default
  if sh.found = true ∧ (sh.hit.sub shadow_orig).norm m < light_distance then acc
  else
    (acc.1 + l.intensity * max 0 (light_dir.dot N),
     acc.2 + m.powf (max 0 ((reflect light_dir.neg N).neg.dot dir)) material.specular_exponent
        * l.intensity)

/-- The loop over the lights in `cast_ray`, from both intensities at `0`. -/
def light_loop (m : CMath α) (spheres : List (Sphere α)) (lights : List (Light α))
    (dir point N : Vec3 α) (material : Material α) : α × α :=
  lights.foldl (light_step m spheres dir point N material) (0, 0)

/-- The colour `cast_ray` returns on a hit, from the two intensities and the colours of
the two secondary rays. -/
def combine (material : Material α) (diffuse_light_intensity specular_light_intensity : α)
    (reflect_color refract_color : Vec3 α) : Vec3 α :=
  ((((material.diffuse_color.scale diffuse_light_intensity).scale (material.albedo.get 0)).add
    (((⟨1, 1, 1⟩ : Vec3 α).scale specular_light_intensity).scale (material.albedo.get 1))).add
    (reflect_color.scale (material.albedo.get 2))).add
    (refract_color.scale (material.albedo.get 3))

/-- The function `cast_ray`. -/
def cast_ray (m : CMath α) (orig dir : Vec3 α) (spheres : List (Sphere α))
    (lights : List (Light α)) (depth : Nat) : Vec3 α :=
  let si := scene_intersect m orig dir spheres Vec3.zero Vec3.zero Material.default
  if h : depth > 4 then background
  else if si.found = false then background
  else
    let point := si.hit
    let N := si.N
    let material := si.material
    let reflect_dir := (reflect dir N).normalize m
    let refract_dir := (refract m dir N material.refractive_index 1).normalize m
    let reflect_orig := offset_orig reflect_dir point N
    let refract_orig := offset_orig refract_dir point N
    let reflect_color := cast_ray m reflect_orig reflect_dir spheres lights (depth + 1)
    let refract_color := cast_ray m refract_orig refract_dir spheres lights (depth + 1)
    let li := light_loop m spheres lights dir point N material
    combine material li.1 li.2 reflect_color refract_color
termination_by 5 - depth
decreasing_by all_goals omega

/-- The function `cast_ray` instrumented: next to the colour, the number of calls of
`cast_ray` in the call tree of this call that return without recursing (its leaves), and the
height of that call tree (`0` for a call that does not recurse). -/
def cast_ray_counted (m : CMath α) (orig dir : Vec3 α) (spheres : List (Sphere α))
    (lights : List (Light α)) (depth : Nat) : Vec3 α × Nat × Nat :=
  let si := scene_intersect m orig dir spheres Vec3.zero Vec3.zero Material.default
  if h : depth > 4 then (background, 1, 0)
  else if si.found = false then (background, 1, 0)
  else
    let point := si.hit
    let N := si.N
    let material := si.material
    let reflect_dir := (reflect dir N).normalize m
    let refract_dir := (refract m dir N material.refractive_index 1).normalize m
    let reflect_orig := offset_orig reflect_dir point N
    let refract_orig := offset_orig refract_dir point N
    let reflect_res := cast_ray_counted m reflect_orig reflect_dir spheres lights (depth + 1)
    let refract_res := cast_ray_counted m refract_orig refract_dir spheres lights (depth + 1)
    let li := light_loop m spheres lights dir point N material
    (combine material li.1 li.2 reflect_res.1 refract_res.1,
      reflect_res.2.1 + refract_res.2.1,
      1 + max reflect_res.2.2 refract_res.2.2)
termination_by 5 - depth
decreasing_by all_goals omega

/-- The optimised variant of `cast_ray` the specification allows: it skips the reflection
recursion when `albedo[2]` of the hit material is exactly zero and the refraction recursion
when `albedo[3]` is exactly zero, and uses the placeholder colours `skipped_reflect` and
`skipped_refract` for a skipped branch. -/
def cast_ray_optimized (m : CMath α) (skipped_reflect skipped_refract : Vec3 α)
    (orig dir : Vec3 α) (spheres : List (Sphere α)) (lights : List (Light α)) (depth : Nat) :
    Vec3 α :=
  let si := scene_intersect m orig dir spheres Vec3.zero Vec3.zero Material.default
  if h : depth > 4 then background
  else if si.found = false then background
  else
    let point := si.hit
    let N := si.N
    let material := si.material
    let reflect_dir := (reflect dir N).normalize m
    let refract_dir := (refract m dir N material.refractive_index 1).normalize m
    let reflect_orig := offset_orig reflect_dir point N
    let refract_orig := offset_orig refract_dir point N
    let reflect_color :=
      if material.albedo.get 2 = 0 then skipped_reflect
      else cast_ray_optimized m skipped_reflect skipped_refract reflect_orig reflect_dir
        spheres lights (depth + 1)
    let refract_color :=
      if material.albedo.get 3 = 0 then skipped_refract
      else cast_ray_optimized m skipped_reflect skipped_refract refract_orig refract_dir
        spheres lights (depth + 1)
    let li := light_loop m spheres lights dir point N material
    combine material li.1 li.2 reflect_color refract_color
termination_by 5 - depth
decreasing_by all_goals omega

/-- The direction of the primary ray of pixel `(i, j)` in `render`, normalised. -/
def primary_dir (m : CMath α) (width height i j : Nat) : Vec3 α :=
  let fov : α := m.M_PI / 3
  let dir_x : α := ((i : α) + 0.5) - (width : α) / 2
  let dir_y : α := -((j : α) + 0.5) + (height : α) / 2
  let dir_z : α := -(height : α) / (2 * m.tan (fov / 2))
  (⟨dir_x, dir_y, dir_z⟩ : Vec3 α).normalize m

/-- The colour `render` stores for pixel `(i, j)`: `cast_ray` from the origin along the
primary ray, at the default depth `0`. -/
def render_pixel (m : CMath α) (spheres : List (Sphere α)) (lights : List (Light α))
    (width height i j : Nat) : Vec3 α :=
  cast_ray m ⟨0, 0, 0⟩ (primary_dir m width height i j) spheres lights 0

/-- The value a 32-bit `int` expression delivers when its exact value is `z`: two's
complement wrap-around. An exact value outside the range of `int` is a signed overflow, for
which C++ guarantees nothing; wrap-around is what the hardware computes. -/
def int_wrap (z : Int) : Int := (z + 2147483648) % 4294967296 - 2147483648

/-- The conversion of an `int` to the 64-bit unsigned `size_t`. -/
def to_size_t (z : Int) : Nat := (z % 18446744073709551616).toNat

/-- The number of slots of `std::vector<Vec3f> framebuffer(width * height)` in `render`: the
product is computed in `int` and converted to `size_t`. -/
def framebuffer_size (width height : Nat) : Nat :=
  to_size_t (int_wrap ((width : Int) * (height : Int)))

/-- The index `i + j * width` of `render`, as computed in `size_t`. -/
def slot_index (width i j : Nat) : Nat := (i + j * width) % 18446744073709551616

/-- The inner loop of `render` on row `j`: `framebuffer[i + j * width] = ...` for
`i = 0 .. width - 1`. A write outside the framebuffer leaves the list as it is. For `width`
and `height` in the range of `int` the index does not wrap in `size_t`, see `slot_index`. -/
def render_row (m : CMath α) (spheres : List (Sphere α)) (lights : List (Light α))
    (width height j : Nat) (framebuffer : List (Vec3 α)) : List (Vec3 α) :=
  (List.range width).foldl
    (fun fb i => fb.set (i + j * width) (render_pixel m spheres lights width height i j))
    framebuffer

/-- The rendering loop of `render`, from the framebuffer of `framebuffer_size width height`
default vectors; `width` and `height` are the non-negative values of the two `int`s. -/
def render_loop (m : CMath α) (spheres : List (Sphere α)) (lights : List (Light α))
    (width height : Nat) : List (Vec3 α) :=
  (List.range height).foldl (fun fb j => render_row m spheres lights width height j fb)
    (List.replicate (framebuffer_size width height) Vec3.zero)

/-- The tone-mapping of one colour in the output loop of `render`:
`if (max > 1) c = c * (1. / max)`. -/
def tone_map (c : Vec3 α) : Vec3 α :=
  let mx := max (c.get 0) (max (c.get 1) (c.get 2))
  if mx > 1 then c.scale (1 / mx) else c

/-- The framebuffer of `render` after the output loop has tone-mapped every colour. -/
def render (m : CMath α) (spheres : List (Sphere α)) (lights : List (Light α))
    (width height : Nat) : List (Vec3 α) :=
  (render_loop m spheres lights width height).map tone_map

end Core

/-- A rational instance of the library, to evaluate the embedding: `sqrtf` is the quotient
of the integer square roots of numerator and denominator (exact on squares of rationals),
`powf` takes the integer part of the exponent, `tan` is its Taylor polynomial of degree 5. -/
def ratMath : CMath ℚ where
  sqrtf q := (Nat.sqrt q.num.toNat : ℚ) / (Nat.sqrt q.den : ℚ)
  powf x y := x ^ y.floor.toNat
  tan x := x + x ^ 3 / 3 + 2 * x ^ 5 / 15
  M_PI := 355 / 113

/-! Theorems about the embedding. -/

section Theorems

variable {α : Type} [LinearOrderedField α]

theorem FLT_MAX_gt : (1000 : α) < FLT_MAX := by
  unfold FLT_MAX; norm_num

theorem scene_intersect_nil (m : CMath α) (orig dir hit N : Vec3 α) (material : Material α) :
    (scene_intersect m orig dir [] hit N material).found = false := by
  simp only [scene_intersect, List.foldl_nil, SceneHit.found, decide_eq_false_iff_not, not_lt]
  exact le_of_lt FLT_MAX_gt

theorem cast_ray_nil (m : CMath α) (orig dir : Vec3 α) (lights : List (Light α)) (depth : Nat) :
    cast_ray m orig dir [] lights depth = background := by
  unfold cast_ray
  simp only [scene_intersect_nil]
  split_ifs <;> rfl

theorem tone_map_background : tone_map (background : Vec3 α) = background := by
  have h : ¬ (max (0.2 : α) (max 0.7 0.8) > 1) := by norm_num
  simp only [tone_map, background, Vec3.get, if_neg h]

theorem set_fold_length {β : Type} (px : Nat → β) (base n : Nat) (fb : List β) :
    ((List.range n).foldl (fun fb i => fb.set (i + base) (px i)) fb).length = fb.length := by
  induction n with
  | zero => rfl
  | succ n ih => rw [List.range_succ, List.foldl_append]; simpa using ih

theorem set_fold_getElem? {β : Type} (px : Nat → β) (base n : Nat) (fb : List β) (k : Nat) :
    ((List.range n).foldl (fun fb i => fb.set (i + base) (px i)) fb)[k]? =
      if base ≤ k ∧ k < base + n ∧ k < fb.length then some (px (k - base)) else fb[k]? := by
  induction n with
  | zero =>
    have : ¬ (base ≤ k ∧ k < base + 0 ∧ k < fb.length) := by omega
    rw [if_neg this]
    rfl
  | succ n ih =>
    rw [List.range_succ, List.foldl_append]
    simp only [List.foldl_cons, List.foldl_nil]
    rw [List.getElem?_set, set_fold_length, ih]
    by_cases hk : n + base = k
    · subst hk
      rw [if_pos rfl]
      by_cases hlen : n + base < fb.length
      · have h2 : base ≤ n + base ∧ n + base < base + (n + 1) ∧ n + base < fb.length := by
          omega
        rw [if_pos hlen, if_pos h2]
        congr 2
        omega
      · have h2 : ¬ (base ≤ n + base ∧ n + base < base + (n + 1) ∧ n + base < fb.length) := by
          omega
        rw [if_neg hlen, if_neg h2, List.getElem?_eq_none (by omega)]
    · rw [if_neg hk]
      by_cases h3 : base ≤ k ∧ k < base + n ∧ k < fb.length
      · have h4 : base ≤ k ∧ k < base + (n + 1) ∧ k < fb.length := by omega
        rw [if_pos h3, if_pos h4]
      · have h4 : ¬ (base ≤ k ∧ k < base + (n + 1) ∧ k < fb.length) := by omega
        rw [if_neg h3, if_neg h4]

theorem render_row_length_eq (m : CMath α) (spheres : List (Sphere α))
    (lights : List (Light α)) (width height j : Nat) (fb : List (Vec3 α)) :
    (render_row m spheres lights width height j fb).length = fb.length :=
  set_fold_length (fun i => render_pixel m spheres lights width height i j) (j * width) width
    fb

theorem render_row_getElem? (m : CMath α) (spheres : List (Sphere α)) (lights : List (Light α))
    (width height j : Nat) (fb : List (Vec3 α)) (k : Nat) :
    (render_row m spheres lights width height j fb)[k]? =
      if j * width ≤ k ∧ k < j * width + width ∧ k < fb.length
      then some (render_pixel m spheres lights width height (k - j * width) j)
      else fb[k]? :=
  set_fold_getElem? (fun i => render_pixel m spheres lights width height i j) (j * width)
    width fb k

theorem render_rows_upto (m : CMath α) (spheres : List (Sphere α)) (lights : List (Light α))
    (width height n : Nat) (fb : List (Vec3 α)) :
    ((List.range n).foldl (fun fb j => render_row m spheres lights width height j fb)
        fb).length = fb.length ∧
    ∀ k, ((List.range n).foldl (fun fb j => render_row m spheres lights width height j fb)
        fb)[k]? =
      if k < n * width ∧ k < fb.length
      then some (render_pixel m spheres lights width height (k % width) (k / width))
      else fb[k]? := by
  induction n with
  | zero => simp
  | succ n ih =>
    obtain ⟨ihl, ihk⟩ := ih
    rw [List.range_succ, List.foldl_append]
    simp only [List.foldl_cons, List.foldl_nil]
    refine ⟨by rw [render_row_length_eq, ihl], fun k => ?_⟩
    rw [render_row_getElem?, ihk k, ihl, Nat.succ_mul]
    by_cases h1 : n * width ≤ k ∧ k < n * width + width ∧ k < fb.length
    · have hw : 0 < width := by omega
      have h2 : k < n * width + width ∧ k < fb.length := ⟨h1.2.1, h1.2.2⟩
      have hdiv : k / width = n := by
        apply Nat.div_eq_of_lt_le
        · exact h1.1
        · rw [Nat.succ_mul]; exact h1.2.1
      have hmod : k % width = k - n * width := by
        have := Nat.div_add_mod k width
        rw [hdiv, Nat.mul_comm] at this
        omega
      rw [if_pos h1, if_pos h2, hdiv, hmod]
    · rw [if_neg h1]
      by_cases h3 : k < n * width ∧ k < fb.length
      · have h4 : k < n * width + width ∧ k < fb.length := by omega
        rw [if_pos h3, if_pos h4]
      · have h4 : ¬ (k < n * width + width ∧ k < fb.length) := by omega
        rw [if_neg h3, if_neg h4]

theorem framebuffer_size_eq (width height : Nat) (h : width * height < 2147483648) :
    framebuffer_size width height = width * height := by
  unfold framebuffer_size to_size_t int_wrap
  have : ((width : Int) * (height : Int)) = ((width * height : Nat) : Int) := by push_cast; rfl
  rw [this]
  generalize width * height = p at h
  omega

theorem render_loop_length (m : CMath α) (spheres : List (Sphere α))
    (lights : List (Light α)) (width height : Nat) :
    (render_loop m spheres lights width height).length = framebuffer_size width height := by
  have h := (render_rows_upto m spheres lights width height height
    (List.replicate (framebuffer_size width height) Vec3.zero)).1
  unfold render_loop
  rw [h, List.length_replicate]

theorem render_loop_getElem? (m : CMath α) (spheres : List (Sphere α))
    (lights : List (Light α)) (width height k : Nat) (hk : k < width * height)
    (hb : k < framebuffer_size width height) :
    (render_loop m spheres lights width height)[k]? =
      some (render_pixel m spheres lights width height (k % width) (k / width)) := by
  have h := (render_rows_upto m spheres lights width height height
    (List.replicate (framebuffer_size width height) Vec3.zero)).2 k
  unfold render_loop
  rw [h, List.length_replicate, if_pos ⟨by rw [Nat.mul_comm]; exact hk, hb⟩]

/-- C1: with zero spheres, for any lights, width and height, every pixel `render` computes
(`framebuffer[i + j * width] = cast_ray` from the origin along the primary ray of `(i, j)`)
is exactly the background colour `(0.2, 0.7, 0.8)`, and tone-mapping leaves it unchanged:
every slot of the framebuffer that `render` writes holds the background colour before and
after tone-mapping. -/
theorem C1_empty_scene_background (m : CMath α) (lights : List (Light α))
    (width height : Nat) :
    (∀ i j, render_pixel m [] lights width height i j = ⟨0.2, 0.7, 0.8⟩) ∧
    (∀ i j, i < width → j < height → i + j * width < framebuffer_size width height →
      (render_loop m [] lights width height)[i + j * width]? = some ⟨0.2, 0.7, 0.8⟩) ∧
    tone_map (⟨0.2, 0.7, 0.8⟩ : Vec3 α) = ⟨0.2, 0.7, 0.8⟩ ∧
    (render m [] lights width height).length = framebuffer_size width height ∧
    (∀ k, k < width * height → k < framebuffer_size width height →
      (render m [] lights width height)[k]? = some ⟨0.2, 0.7, 0.8⟩) := by
  have hpx : ∀ i j, render_pixel m [] lights width height i j = background :=
    fun i j => cast_ray_nil m _ _ lights 0
  have hloop : ∀ k, k < width * height → k < framebuffer_size width height →
      (render_loop m [] lights width height)[k]? = some background := by
    intro k hk hb
    rw [render_loop_getElem? m [] lights width height k hk hb, hpx]
  refine ⟨hpx, ?_, tone_map_background, ?_, ?_⟩
  · intro i j hi hj hb
    apply hloop _ _ hb
    calc i + j * width < width + j * width := by omega
      _ = width * (j + 1) := by ring
      _ ≤ width * height := Nat.mul_le_mul_left _ hj
  · simp only [render, List.length_map, render_loop_length]
  · intro k hk hb
    simp only [render, List.getElem?_map, hloop k hk hb, Option.map_some']
    exact congrArg some tone_map_background

/-- An instance of C1: a 2 by 2 image of the empty scene with one light. -/
theorem C1_empty_scene_background_witness :
    (1 < 2 ∧ 1 < 2 ∧ 1 + 1 * 2 < framebuffer_size 2 2) ∧
    (render_loop ratMath [] [⟨⟨0, 3, 0⟩, 1⟩] 2 2)[1 + 1 * 2]? = some ⟨0.2, 0.7, 0.8⟩ ∧
    ((3 < 2 * 2 ∧ 3 < framebuffer_size 2 2) ∧
      (render ratMath [] [⟨⟨0, 3, 0⟩, 1⟩] 2 2)[3]? = some ⟨0.2, 0.7, 0.8⟩) :=
  ⟨⟨by decide, by decide, by decide⟩,
    (C1_empty_scene_background ratMath [⟨⟨0, 3, 0⟩, 1⟩] 2 2).2.1 1 1 (by decide) (by decide)
      (by decide),
    ⟨by decide, by decide⟩,
    (C1_empty_scene_background ratMath [⟨⟨0, 3, 0⟩, 1⟩] 2 2).2.2.2.2 3 (by decide)
      (by decide)⟩

/-- C2: for every scene, ray and depth `>= 5`, `cast_ray` returns the background colour
`(0.2, 0.7, 0.8)`, whatever the ray hits. -/
theorem C2_depth_cutoff (m : CMath α) (orig dir : Vec3 α) (spheres : List (Sphere α))
    (lights : List (Light α)) (depth : Nat) (h : 5 ≤ depth) :
    cast_ray m orig dir spheres lights depth = ⟨0.2, 0.7, 0.8⟩ := by
  unfold cast_ray
  have h4 : depth > 4 := h
  simp only [h4, dite_true]
  rfl

theorem exactSqrt_real : ExactSqrt (⟨Real.sqrt, Real.rpow, Real.tan, Real.pi⟩ : CMath ℝ) :=
  fun x hx => ⟨Real.sqrt_nonneg x, Real.mul_self_sqrt hx⟩

theorem sqrtf_mul_self (m : CMath α) (hm : ExactSqrt m) (r : α) (hr : 0 ≤ r) :
    m.sqrtf (r * r) = r := by
  obtain ⟨h0, h1⟩ := hm (r * r) (mul_self_nonneg r)
  exact (mul_self_inj h0 hr).mp h1

theorem sqrtf_one (m : CMath α) (hm : ExactSqrt m) : m.sqrtf 1 = 1 := by
  have h := sqrtf_mul_self m hm 1 zero_le_one
  rwa [mul_one] at h

theorem sqrtf_zero (m : CMath α) (hm : ExactSqrt m) : m.sqrtf 0 = 0 := by
  have h := sqrtf_mul_self m hm 0 le_rfl
  rwa [mul_zero] at h

theorem ray_intersect_axis (m : CMath α) (hm : ExactSqrt m) (r d : α) (mat : Material α)
    (hr : 0 < r) (hd : r < d) :
    Sphere.ray_intersect m ⟨⟨0, 0, -d⟩, r, mat⟩ ⟨0, 0, 0⟩ ⟨0, 0, -1⟩ = some (d - r) := by
  have h1 : ¬ ((0 : α) > r * r) := not_lt.mpr (mul_self_nonneg r)
  have h2 : ¬ (d - r < 0) := by linarith
  simp only [Sphere.ray_intersect, Vec3.sub, Vec3.dot]
  ring_nf
  have h3 : ¬ ((0 : α) > r ^ 2) := by rw [pow_two]; exact h1
  have h4 : m.sqrtf (r ^ 2) = r := by rw [pow_two]; exact sqrtf_mul_self m hm r hr.le
  have h5 : ¬ (d - r < 0) := h2
  simp only [gt_iff_lt] at h3
  simp [h3, h4, h5]

theorem ray_intersect_nonneg (m : CMath α) (s : Sphere α) (orig dir : Vec3 α) (t : α)
    (h : s.ray_intersect m orig dir = some t) : 0 ≤ t := by
  unfold Sphere.ray_intersect at h
  simp only at h
  split_ifs at h <;> (injection h with h; rw [← h]; linarith)

theorem scene_step_none (m : CMath α) (orig dir : Vec3 α) (st : SceneHit α) (s : Sphere α)
    (h : s.ray_intersect m orig dir = none) : scene_intersect_step m orig dir st s = st := by
  simp only [scene_intersect_step, h]

theorem scene_step_far (m : CMath α) (orig dir : Vec3 α) (st : SceneHit α) (s : Sphere α)
    (t : α) (h : s.ray_intersect m orig dir = some t) (hge : st.spheres_dist ≤ t) :
    scene_intersect_step m orig dir st s = st := by
  simp only [scene_intersect_step, h, if_neg (not_lt.mpr hge)]

theorem scene_step_near (m : CMath α) (orig dir : Vec3 α) (st : SceneHit α) (s : Sphere α)
    (t : α) (h : s.ray_intersect m orig dir = some t) (hlt : t < st.spheres_dist) :
    scene_intersect_step m orig dir st s =
      { spheres_dist := t, hit := orig.add (dir.scale t),
        N := ((orig.add (dir.scale t)).sub s.center).normalize m, material := s.material } := by
  simp only [scene_intersect_step, h, if_pos hlt]

/-- The loop of `scene_intersect` from the state `st`: either no sphere of the list is hit
nearer than `st.spheres_dist` and the state is unchanged, or the state is the record of the
first sphere of the list that attains the smallest distance. -/
theorem scene_fold_spec (m : CMath α) (orig dir : Vec3 α) (l : List (Sphere α)) :
    ∀ st : SceneHit α,
    (l.foldl (scene_intersect_step m orig dir) st = st ∧
      ∀ s ∈ l, ∀ t, s.ray_intersect m orig dir = some t → st.spheres_dist ≤ t) ∨
    (∃ (i : Nat) (s : Sphere α) (t : α), l[i]? = some s ∧
      s.ray_intersect m orig dir = some t ∧ t < st.spheres_dist ∧
      (∀ s' ∈ l, ∀ t', s'.ray_intersect m orig dir = some t' → t ≤ t') ∧
      (∀ (j : Nat) (s' : Sphere α), j < i → l[j]? = some s' →
        s'.ray_intersect m orig dir ≠ some t) ∧
      l.foldl (scene_intersect_step m orig dir) st =
        { spheres_dist := t, hit := orig.add (dir.scale t),
          N := ((orig.add (dir.scale t)).sub s.center).normalize m,
          material := s.material }) := by
  induction l with
  | nil =>
    intro st
    left
    exact ⟨rfl, fun s hs => absurd hs (List.not_mem_nil s)⟩
  | cons a l ih =>
    intro st
    rw [List.foldl_cons]
    -- the bound `a` contributes, as a fact about every distance it reports
    by_cases hnear : ∃ ta, a.ray_intersect m orig dir = some ta ∧ ta < st.spheres_dist
    · obtain ⟨ta, hta, hlt⟩ := hnear
      rw [scene_step_near m orig dir st a ta hta hlt]
      right
      rcases ih ⟨ta, orig.add (dir.scale ta),
          ((orig.add (dir.scale ta)).sub a.center).normalize m, a.material⟩ with
        ⟨heq, hall⟩ | ⟨i, s, t, hi, hs, ht, hmin, hfirst, heq⟩
      · refine ⟨0, a, ta, List.getElem?_cons_zero, hta, hlt, ?_, ?_, heq⟩
        · intro s' hs' t' ht'
          rcases List.mem_cons.mp hs' with h | h
          · subst h
            rw [hta] at ht'
            injection ht' with ht'
            exact le_of_eq ht'
          · exact hall s' h t' ht'
        · intro j s' hj
          exact absurd hj (Nat.not_lt_zero j)
      · simp only at ht
        refine ⟨i + 1, s, t, by simpa using hi, hs, lt_trans ht hlt, ?_, ?_, heq⟩
        · intro s' hs' t' ht'
          rcases List.mem_cons.mp hs' with h | h
          · subst h
            rw [hta] at ht'
            injection ht' with ht'
            rw [← ht']
            exact le_of_lt ht
          · exact hmin s' h t' ht'
        · intro j s' hj hjs
          cases j with
          | zero =>
            simp only [List.getElem?_cons_zero, Option.some.injEq] at hjs
            subst hjs
            rw [hta]
            intro hc
            injection hc with hc
            exact absurd ht (by rw [hc]; exact lt_irrefl t)
          | succ j =>
            simp only [List.getElem?_cons_succ] at hjs
            exact hfirst j s' (by omega) hjs
    · have hstep : scene_intersect_step m orig dir st a = st := by
        cases hra : a.ray_intersect m orig dir with
        | none => exact scene_step_none m orig dir st a hra
        | some ta =>
          exact scene_step_far m orig dir st a ta hra
            (not_lt.mp fun hc => hnear ⟨ta, hra, hc⟩)
      have hafar : ∀ t, a.ray_intersect m orig dir = some t → st.spheres_dist ≤ t :=
        fun t ht => not_lt.mp fun hc => hnear ⟨t, ht, hc⟩
      rw [hstep]
      rcases ih st with ⟨heq, hall⟩ | ⟨i, s, t, hi, hs, ht, hmin, hfirst, heq⟩
      · left
        refine ⟨heq, ?_⟩
        intro s' hs' t' ht'
        rcases List.mem_cons.mp hs' with h | h
        · subst h; exact hafar t' ht'
        · exact hall s' h t' ht'
      · right
        refine ⟨i + 1, s, t, by simpa using hi, hs, ht, ?_, ?_, heq⟩
        · intro s' hs' t' ht'
          rcases List.mem_cons.mp hs' with h | h
          · subst h; exact le_of_lt (lt_of_lt_of_le ht (hafar t' ht'))
          · exact hmin s' h t' ht'
        · intro j s' hj hjs
          cases j with
          | zero =>
            simp only [List.getElem?_cons_zero, Option.some.injEq] at hjs
            subst hjs
            intro hc
            exact absurd (hafar t hc) (not_le.mpr ht)
          | succ j =>
            simp only [List.getElem?_cons_succ] at hjs
            exact hfirst j s' (by omega) hjs

theorem scene_intersect_axis (m : CMath α) (hm : ExactSqrt m) (r d : α) (mat : Material α)
    (hit0 N0 : Vec3 α) (mat0 : Material α) (hr : 0 < r) (hd : r < d)
    (hfar : d - r < FLT_MAX) :
    scene_intersect m ⟨0, 0, 0⟩ ⟨0, 0, -1⟩ [⟨⟨0, 0, -d⟩, r, mat⟩] hit0 N0 mat0 =
      { spheres_dist := d - r, hit := ⟨0, 0, -(d - r)⟩, N := ⟨0, 0, 1⟩, material := mat } := by
  have hray := ray_intersect_axis m hm r d mat hr hd
  have hsq : m.sqrtf (r * r) = r := sqrtf_mul_self m hm r hr.le
  have hr0 : r ≠ 0 := ne_of_gt hr
  simp only [scene_intersect, List.foldl_cons, List.foldl_nil]
  rw [scene_step_near m _ _ _ _ (d - r) hray hfar]
  have hrr : (-(d - r) - -d) = r := by ring
  have h1 : r * (1 / r) = 1 := by field_simp
  have h2 : -1 * (d - r) = -(d - r) := by ring
  simp only [Vec3.add, Vec3.scale, Vec3.sub, Vec3.normalize, Vec3.norm, zero_mul, add_zero,
    sub_zero, mul_zero, zero_add, hrr, hsq, h1, h2]

theorem scene_intersect_axis_found (m : CMath α) (hm : ExactSqrt m) (r d : α)
    (mat : Material α) (hit0 N0 : Vec3 α) (mat0 : Material α) (hr : 0 < r) (hd : r < d) :
    (scene_intersect m ⟨0, 0, 0⟩ ⟨0, 0, -1⟩ [⟨⟨0, 0, -d⟩, r, mat⟩] hit0 N0 mat0).found = true ↔
      d - r < 1000 := by
  by_cases hfar : d - r < FLT_MAX
  · rw [scene_intersect_axis m hm r d mat hit0 N0 mat0 hr hd hfar]
    simp only [SceneHit.found, decide_eq_true_eq]
  · have hray := ray_intersect_axis m hm r d mat hr hd
    simp only [scene_intersect, List.foldl_cons, List.foldl_nil]
    rw [scene_step_far m _ _ _ _ (d - r) hray (not_lt.mp hfar)]
    simp only [SceneHit.found, decide_eq_true_eq]
    have := @FLT_MAX_gt α _
    constructor <;> intro h <;> linarith

/-- C3 (amended): for `r > 0` and `d > r`, on the scene of the single sphere of radius `r`
centred at `(0, 0, -d)`, `scene_intersect` from the origin along `(0, 0, -1)` reports a hit
exactly when `d - r < 1000`; the hit is then at distance `d - r`, at the point
`(0, 0, -(d - r))`. -/
theorem C3_axis_hit_within_horizon (m : CMath α) (hm : ExactSqrt m) (r d : α)
    (mat : Material α) (hit0 N0 : Vec3 α) (mat0 : Material α) (hr : 0 < r) (hd : r < d) :
    ((scene_intersect m ⟨0, 0, 0⟩ ⟨0, 0, -1⟩ [⟨⟨0, 0, -d⟩, r, mat⟩] hit0 N0 mat0).found = true ↔
      d - r < 1000) ∧
    (d - r < 1000 →
      (scene_intersect m ⟨0, 0, 0⟩ ⟨0, 0, -1⟩ [⟨⟨0, 0, -d⟩, r, mat⟩] hit0 N0
        mat0).spheres_dist = d - r ∧
      (scene_intersect m ⟨0, 0, 0⟩ ⟨0, 0, -1⟩ [⟨⟨0, 0, -d⟩, r, mat⟩] hit0 N0 mat0).hit =
        ⟨0, 0, -(d - r)⟩ ∧
      ((scene_intersect m ⟨0, 0, 0⟩ ⟨0, 0, -1⟩ [⟨⟨0, 0, -d⟩, r, mat⟩] hit0 N0 mat0).hit.sub
        ⟨0, 0, 0⟩).norm m = d - r) := by
  refine ⟨scene_intersect_axis_found m hm r d mat hit0 N0 mat0 hr hd, fun hh => ?_⟩
  have hfar : d - r < FLT_MAX := lt_trans hh FLT_MAX_gt
  rw [scene_intersect_axis m hm r d mat hit0 N0 mat0 hr hd hfar]
  refine ⟨rfl, rfl, ?_⟩
  have h := sqrtf_mul_self m hm (d - r) (by linarith)
  simp only [Vec3.sub, Vec3.norm, sub_zero, mul_zero, zero_add, neg_mul_neg]
  exact h

/-- An instance of C3 (amended): radius `1`, centre `(0, 0, -3)`, hit at distance `2`. -/
theorem C3_axis_hit_within_horizon_witness :
    ((0 : ℝ) < 1 ∧ (1 : ℝ) < 3 ∧ (3 : ℝ) - 1 < 1000) ∧
    (scene_intersect (⟨Real.sqrt, Real.rpow, Real.tan, Real.pi⟩ : CMath ℝ) ⟨0, 0, 0⟩ ⟨0, 0, -1⟩
      [⟨⟨0, 0, -3⟩, 1, Material.default⟩] Vec3.zero Vec3.zero Material.default).hit =
        ⟨0, 0, -(3 - 1)⟩ :=
  ⟨⟨by norm_num, by norm_num, by norm_num⟩,
    ((C3_axis_hit_within_horizon _ exactSqrt_real 1 3 Material.default Vec3.zero Vec3.zero
      Material.default (by norm_num) (by norm_num)).2 (by norm_num)).2.1⟩

/-- C3 as stated fails: the sphere of radius `1` centred at `(0, 0, -2000)` has `r > 0` and
`d > r`, and `scene_intersect` along the view axis reports no hit. -/
theorem C3_counterexample :
    (0 : ℝ) < 1 ∧ (1 : ℝ) < 2000 ∧
    (scene_intersect (⟨Real.sqrt, Real.rpow, Real.tan, Real.pi⟩ : CMath ℝ) ⟨0, 0, 0⟩ ⟨0, 0, -1⟩
      [⟨⟨0, 0, -2000⟩, 1, Material.default⟩] Vec3.zero Vec3.zero Material.default).found =
        false := by
  refine ⟨by norm_num, by norm_num, ?_⟩
  have h := scene_intersect_axis_found _ exactSqrt_real 1 2000 Material.default Vec3.zero
    Vec3.zero Material.default (by norm_num) (by norm_num)
  rw [← Bool.not_eq_true, h]
  norm_num

/-- An instance of C2: at depth `5` the ray along the view axis, which hits the sphere of
radius `1` centred at `(0, 0, -3)`, still gets the background colour. -/
theorem C2_depth_cutoff_witness :
    5 ≤ 5 ∧
    (scene_intersect (⟨Real.sqrt, Real.rpow, Real.tan, Real.pi⟩ : CMath ℝ) ⟨0, 0, 0⟩ ⟨0, 0, -1⟩
      [⟨⟨0, 0, -3⟩, 1, Material.default⟩] Vec3.zero Vec3.zero Material.default).found = true ∧
    cast_ray (⟨Real.sqrt, Real.rpow, Real.tan, Real.pi⟩ : CMath ℝ) ⟨0, 0, 0⟩ ⟨0, 0, -1⟩
      [⟨⟨0, 0, -3⟩, 1, Material.default⟩] [⟨⟨0, 3, 0⟩, 1⟩] 5 = ⟨0.2, 0.7, 0.8⟩ :=
  ⟨le_refl 5,
    (scene_intersect_axis_found _ exactSqrt_real 1 3 Material.default Vec3.zero Vec3.zero
      Material.default (by norm_num) (by norm_num)).mpr (by norm_num),
    C2_depth_cutoff _ _ _ _ _ 5 (le_refl 5)⟩

theorem norm_one_dot (m : CMath α) (hm : ExactSqrt m) (N : Vec3 α) (hN : N.norm m = 1) :
    N.dot N = 1 := by
  have h0 : 0 ≤ N.x * N.x + N.y * N.y + N.z * N.z :=
    add_nonneg (add_nonneg (mul_self_nonneg _) (mul_self_nonneg _)) (mul_self_nonneg _)
  have h := (hm _ h0).2
  unfold Vec3.norm at hN
  rw [hN, mul_one] at h
  exact h.symm

theorem refract_cosi_neg (I N : Vec3 α) : refract_cosi I N.neg = -refract_cosi I N := by
  have hd : I.dot N.neg = -I.dot N := by simp only [Vec3.dot, Vec3.neg]; ring
  unfold refract_cosi
  rw [hd]
  generalize I.dot N = d
  simp only [min_def, max_def]
  split_ifs <;> linarith

theorem refract_of_nonneg (m : CMath α) (I N : Vec3 α) (eta_t eta_i : α)
    (h : ¬ refract_cosi I N < 0) : refract m I N eta_t eta_i = refract_body m I N eta_t eta_i := by
  rw [refract, if_neg h]

theorem refract_of_neg (m : CMath α) (I N : Vec3 α) (eta_t eta_i : α)
    (h : refract_cosi I N < 0) :
    refract m I N eta_t eta_i = refract_body m I N.neg eta_i eta_t := by
  have h2 : ¬ refract_cosi I N.neg < 0 := by rw [refract_cosi_neg]; linarith
  rw [refract, if_pos h, refract_of_nonneg m I N.neg eta_i eta_t h2]

theorem refract_total_reflection (m : CMath α) (I N : Vec3 α) (eta_t eta_i : α)
    (hk : refract_final_k I N eta_t eta_i < 0) : refract m I N eta_t eta_i = ⟨1, 0, 0⟩ := by
  unfold refract_final_k at hk
  by_cases h : refract_cosi I N < 0
  · rw [if_pos h] at hk
    rw [refract_of_neg m I N eta_t eta_i h]
    simp only [refract_body, if_pos hk]
  · rw [if_neg h] at hk
    rw [refract_of_nonneg m I N eta_t eta_i h]
    simp only [refract_body, if_pos hk]

/-- C5: for every direction `I` and every normal `N` of unit length, reflecting twice about
`N` gives back `I`. -/
theorem C5_reflect_involutive (m : CMath α) (hm : ExactSqrt m) (I N : Vec3 α)
    (hN : N.norm m = 1) : reflect (reflect I N) N = I := by
  have hNN := norm_one_dot m hm N hN
  obtain ⟨ix, iy, iz⟩ := I
  obtain ⟨nx, ny, nz⟩ := N
  simp only [Vec3.dot] at hNN
  simp only [reflect, Vec3.sub, Vec3.scale, Vec3.dot, Vec3.mk.injEq]
  refine ⟨?_, ?_, ?_⟩
  · linear_combination (4 * nx * (ix * nx + iy * ny + iz * nz)) * hNN
  · linear_combination (4 * ny * (ix * nx + iy * ny + iz * nz)) * hNN
  · linear_combination (4 * nz * (ix * nx + iy * ny + iz * nz)) * hNN

/-- An instance of C5: the direction `(1, 2, 3)` and the unit normal `(0, 0, 1)`. -/
theorem C5_reflect_involutive_witness :
    Vec3.norm (⟨Real.sqrt, Real.rpow, Real.tan, Real.pi⟩ : CMath ℝ) ⟨0, 0, 1⟩ = 1 ∧
    reflect (reflect (⟨1, 2, 3⟩ : Vec3 ℝ) ⟨0, 0, 1⟩) ⟨0, 0, 1⟩ = ⟨1, 2, 3⟩ :=
  ⟨by simp [Vec3.norm],
    C5_reflect_involutive _ exactSqrt_real ⟨1, 2, 3⟩ ⟨0, 0, 1⟩ (by simp [Vec3.norm])⟩

/-- C6: for every unit normal `N` and the incoming direction `I = -N`, `refract(I, N, 1)`
with the default ambient index `1` returns `I`. -/
theorem C6_refract_normal_incidence (m : CMath α) (hm : ExactSqrt m) (I N : Vec3 α)
    (hN : N.norm m = 1) (hI : I = N.neg) : refract m I N 1 1 = I := by
  have hNN := norm_one_dot m hm N hN
  have hd : I.dot N = -1 := by
    rw [hI, ← hNN]; simp only [Vec3.dot, Vec3.neg]; ring
  have hc : refract_cosi I N = 1 := by
    unfold refract_cosi; rw [hd]; norm_num
  rw [refract_of_nonneg m I N 1 1 (by rw [hc]; norm_num)]
  have hk : refract_k (1 / 1 : α) 1 = 1 := by unfold refract_k; norm_num
  have hk0 : ¬ ((1 : α) < 0) := by norm_num
  simp only [refract_body, hc, hk, if_neg hk0, sqrtf_one m hm, Vec3.add, Vec3.scale]
  obtain ⟨ix, iy, iz⟩ := I
  simp

/-- An instance of C6: the unit normal `(0, 0, 1)` and `I = (0, 0, -1)`. -/
theorem C6_refract_normal_incidence_witness :
    Vec3.norm (⟨Real.sqrt, Real.rpow, Real.tan, Real.pi⟩ : CMath ℝ) ⟨0, 0, 1⟩ = 1 ∧
    refract (⟨Real.sqrt, Real.rpow, Real.tan, Real.pi⟩ : CMath ℝ) ⟨0, 0, -1⟩ ⟨0, 0, 1⟩ 1 1 =
      ⟨0, 0, -1⟩ :=
  ⟨by simp [Vec3.norm],
    C6_refract_normal_incidence _ exactSqrt_real ⟨0, 0, -1⟩ ⟨0, 0, 1⟩ (by simp [Vec3.norm])
      (by simp [Vec3.neg])⟩

/-- C7: in the tone-mapping step of `render`, a colour whose largest channel `M` exceeds `1`
has every channel divided by `M`, so that the largest channel of the result is exactly `1`;
`(2.0, 1.0, 0.5)` becomes `(1.0, 0.5, 0.25)`; a colour whose largest channel is at most `1`
is left unchanged. -/
theorem C7_tone_map (c : Vec3 α) :
    (1 < max c.x (max c.y c.z) →
      tone_map c = ⟨c.x / max c.x (max c.y c.z), c.y / max c.x (max c.y c.z),
        c.z / max c.x (max c.y c.z)⟩ ∧
      max (tone_map c).x (max (tone_map c).y (tone_map c).z) = 1) ∧
    (max c.x (max c.y c.z) ≤ 1 → tone_map c = c) ∧
    tone_map (⟨2.0, 1.0, 0.5⟩ : Vec3 α) = ⟨1.0, 0.5, 0.25⟩ := by
  refine ⟨fun h => ?_, fun h => ?_, ?_⟩
  · have hM : 0 < max c.x (max c.y c.z) := lt_trans zero_lt_one h
    have ht : tone_map c = ⟨c.x / max c.x (max c.y c.z), c.y / max c.x (max c.y c.z),
        c.z / max c.x (max c.y c.z)⟩ := by
      simp only [tone_map, Vec3.get, gt_iff_lt, if_pos h, Vec3.scale, mul_one_div]
    refine ⟨ht, ?_⟩
    rw [ht]
    simp only
    rw [max_div_div_right hM.le, max_div_div_right hM.le, div_self (ne_of_gt hM)]
  · simp only [tone_map, Vec3.get, gt_iff_lt, if_neg (not_lt.mpr h)]
  · have h : (1 : α) < max 2.0 (max 1.0 0.5) := by norm_num
    simp only [tone_map, Vec3.get, gt_iff_lt, if_pos h, Vec3.scale, Vec3.mk.injEq]
    norm_num

/-- An instance of C7: the colour `(3, 1, 2)` is scaled by `1 / 3`, the colour
`(1 / 2, 1, 1 / 4)` is unchanged. -/
theorem C7_tone_map_witness :
    ((1 : ℚ) < max 3 (max 1 2) ∧
      max (tone_map (⟨3, 1, 2⟩ : Vec3 ℚ)).x
        (max (tone_map (⟨3, 1, 2⟩ : Vec3 ℚ)).y (tone_map (⟨3, 1, 2⟩ : Vec3 ℚ)).z) = 1) ∧
    (max (1 / 2 : ℚ) (max 1 (1 / 4)) ≤ 1 ∧
      tone_map (⟨1 / 2, 1, 1 / 4⟩ : Vec3 ℚ) = ⟨1 / 2, 1, 1 / 4⟩) :=
  ⟨⟨by norm_num, ((C7_tone_map (⟨3, 1, 2⟩ : Vec3 ℚ)).1 (by norm_num)).2⟩,
    ⟨by norm_num, (C7_tone_map (⟨1 / 2, 1, 1 / 4⟩ : Vec3 ℚ)).2.1 (by norm_num)⟩⟩

/-- C8: `scene_intersect` reports a hit exactly when some sphere's `ray_intersect` succeeds
and the smallest successful distance is below `1000`; the reported point is then
`orig + dir * t` for that smallest distance `t`, and the reported normal and material are
those of the first sphere in list order that attains `t`. -/
theorem C8_scene_intersect_nearest (m : CMath α) (orig dir : Vec3 α)
    (spheres : List (Sphere α)) (hit0 N0 : Vec3 α) (mat0 : Material α) :
    ((scene_intersect m orig dir spheres hit0 N0 mat0).found = true ↔
      ∃ s ∈ spheres, ∃ t : α, s.ray_intersect m orig dir = some t ∧
        (∀ s' ∈ spheres, ∀ t', s'.ray_intersect m orig dir = some t' → t ≤ t') ∧ t < 1000) ∧
    ((scene_intersect m orig dir spheres hit0 N0 mat0).found = true →
      ∃ (i : Nat) (s : Sphere α) (t : α), spheres[i]? = some s ∧
        s.ray_intersect m orig dir = some t ∧
        (∀ s' ∈ spheres, ∀ t', s'.ray_intersect m orig dir = some t' → t ≤ t') ∧
        (∀ (j : Nat) (s' : Sphere α), j < i → spheres[j]? = some s' →
          s'.ray_intersect m orig dir ≠ some t) ∧
        t < 1000 ∧
        (scene_intersect m orig dir spheres hit0 N0 mat0).hit = orig.add (dir.scale t) ∧
        (scene_intersect m orig dir spheres hit0 N0 mat0).N =
          ((orig.add (dir.scale t)).sub s.center).normalize m ∧
        (scene_intersect m orig dir spheres hit0 N0 mat0).material = s.material) := by
  have hmax := @FLT_MAX_gt α _
  unfold scene_intersect
  rcases scene_fold_spec m orig dir spheres
      ⟨FLT_MAX, hit0, N0, mat0⟩ with
    ⟨heq, hall⟩ | ⟨i, s, t, hi, hs, ht, hmin, hfirst, heq⟩
  · have hnf : ¬ ((FLT_MAX : α) < 1000) := not_lt.mpr hmax.le
    rw [heq]
    simp only [SceneHit.found, decide_eq_true_eq]
    refine ⟨⟨fun h => absurd h hnf, ?_⟩, fun h => absurd h hnf⟩
    rintro ⟨s, hs, t, hst, _, ht⟩
    have := hall s hs t hst
    simp only at this
    linarith
  · rw [heq]
    simp only [SceneHit.found, decide_eq_true_eq]
    have hmem : s ∈ spheres := List.mem_iff_getElem?.mpr ⟨i, hi⟩
    refine ⟨⟨fun h => ⟨s, hmem, t, hs, hmin, h⟩, ?_⟩,
      fun h => ⟨i, s, t, hi, hs, hmin, hfirst, h, rfl, rfl, rfl⟩⟩
    rintro ⟨s2, hs2, t2, hst2, _, ht2⟩
    exact lt_of_le_of_lt (hmin s2 hs2 t2 hst2) ht2

/-- An instance of C8: two spheres on the view axis, the second one nearer; the hit is
reported, with the material of the second sphere. -/
theorem C8_scene_intersect_nearest_witness :
    (scene_intersect (⟨Real.sqrt, Real.rpow, Real.tan, Real.pi⟩ : CMath ℝ) ⟨0, 0, 0⟩ ⟨0, 0, -1⟩
      [⟨⟨0, 0, -5⟩, 1, Material.default⟩, ⟨⟨0, 0, -3⟩, 1, ⟨1, ⟨0, 1, 0, 0⟩, ⟨1, 0, 0⟩, 2⟩⟩]
      Vec3.zero Vec3.zero Material.default).found = true :=
  (C8_scene_intersect_nearest (⟨Real.sqrt, Real.rpow, Real.tan, Real.pi⟩ : CMath ℝ)
    ⟨0, 0, 0⟩ ⟨0, 0, -1⟩
    [⟨⟨0, 0, -5⟩, 1, Material.default⟩, ⟨⟨0, 0, -3⟩, 1, ⟨1, ⟨0, 1, 0, 0⟩, ⟨1, 0, 0⟩, 2⟩⟩]
    Vec3.zero Vec3.zero Material.default).1.mpr
    ⟨⟨⟨0, 0, -3⟩, 1, ⟨1, ⟨0, 1, 0, 0⟩, ⟨1, 0, 0⟩, 2⟩⟩, by simp, 3 - 1,
      ray_intersect_axis _ exactSqrt_real 1 3 _ (by norm_num) (by norm_num),
      by
        intro s' hs' t' ht'
        simp only [List.mem_cons, List.mem_singleton, List.not_mem_nil, or_false] at hs'
        rcases hs' with h | h
        · subst h
          rw [ray_intersect_axis _ exactSqrt_real 1 5 _ (by norm_num) (by norm_num)] at ht'
          injection ht' with ht'
          rw [← ht']; norm_num
        · subst h
          rw [ray_intersect_axis _ exactSqrt_real 1 3 _ (by norm_num) (by norm_num)] at ht'
          injection ht' with ht'
          rw [← ht'],
      by norm_num⟩

theorem cast_ray_hit (m : CMath α) (orig dir : Vec3 α) (spheres : List (Sphere α))
    (lights : List (Light α)) (depth : Nat) (si : SceneHit α)
    (hsi : si = scene_intersect m orig dir spheres Vec3.zero Vec3.zero Material.default)
    (hd : depth ≤ 4) (hf : si.found = true) :
    cast_ray m orig dir spheres lights depth =
      combine si.material
        (light_loop m spheres lights dir si.hit si.N si.material).1
        (light_loop m spheres lights dir si.hit si.N si.material).2
        (cast_ray m (offset_orig ((reflect dir si.N).normalize m) si.hit si.N)
          ((reflect dir si.N).normalize m) spheres lights (depth + 1))
        (cast_ray m
          (offset_orig ((refract m dir si.N si.material.refractive_index 1).normalize m)
            si.hit si.N)
          ((refract m dir si.N si.material.refractive_index 1).normalize m) spheres lights
          (depth + 1)) := by
  have h4 : ¬ depth > 4 := by omega
  have hff : ¬ si.found = false := by rw [hf]; simp
  rw [cast_ray]
  simp only [dif_neg h4, ← hsi]
  rw [if_neg hff]

/-- C9 (amended): whenever total internal reflection occurs (after the inside/outside swap,
`k < 0`), `refract` returns the constant vector `(1, 0, 0)`. -/
theorem C9_total_reflection_constant (m : CMath α) (I N : Vec3 α) (eta_t eta_i : α)
    (hk : refract_final_k I N eta_t eta_i < 0) : refract m I N eta_t eta_i = ⟨1, 0, 0⟩ :=
  refract_total_reflection m I N eta_t eta_i hk

/-- An instance of C9 (amended): `I = (-4/5, 3/5, 0)`, `N = (1, 0, 0)`, `eta_t = 1/2`,
`eta_i = 1`, where `k = -11/25`. -/
theorem C9_total_reflection_constant_witness :
    refract_final_k (⟨-4 / 5, 3 / 5, 0⟩ : Vec3 ℚ) ⟨1, 0, 0⟩ (1 / 2) 1 < 0 ∧
    refract ratMath ⟨-4 / 5, 3 / 5, 0⟩ ⟨1, 0, 0⟩ (1 / 2) 1 = ⟨1, 0, 0⟩ :=
  ⟨by norm_num [refract_final_k, refract_cosi, refract_k, Vec3.dot, Vec3.neg],
    C9_total_reflection_constant ratMath ⟨-4 / 5, 3 / 5, 0⟩ ⟨1, 0, 0⟩ (1 / 2) 1
      (by norm_num [refract_final_k, refract_cosi, refract_k, Vec3.dot, Vec3.neg])⟩

/-- C9 as stated fails: for `I = (-4/5, 3/5, 0)`, `N = (1, 0, 0)`, `eta_t = 1/2`,
`eta_i = 1` there is no swap (`cosi = 4/5`), `eta = 2` and `k < 0`, and `refract` returns
`(1, 0, 0)`, not `I * eta + N * (eta * cosi) = (0, 6/5, 0)`. -/
theorem C9_counterexample :
    ¬ refract_cosi (⟨-4 / 5, 3 / 5, 0⟩ : Vec3 ℝ) ⟨1, 0, 0⟩ < 0 ∧
    refract_k ((1 : ℝ) / (1 / 2)) (refract_cosi (⟨-4 / 5, 3 / 5, 0⟩ : Vec3 ℝ) ⟨1, 0, 0⟩) < 0 ∧
    refract (⟨Real.sqrt, Real.rpow, Real.tan, Real.pi⟩ : CMath ℝ) ⟨-4 / 5, 3 / 5, 0⟩ ⟨1, 0, 0⟩
        (1 / 2) 1 ≠
      ((⟨-4 / 5, 3 / 5, 0⟩ : Vec3 ℝ).scale ((1 : ℝ) / (1 / 2))).add
        ((⟨1, 0, 0⟩ : Vec3 ℝ).scale ((1 : ℝ) / (1 / 2) *
          refract_cosi (⟨-4 / 5, 3 / 5, 0⟩ : Vec3 ℝ) ⟨1, 0, 0⟩)) := by
  have hc : refract_cosi (⟨-4 / 5, 3 / 5, 0⟩ : Vec3 ℝ) ⟨1, 0, 0⟩ = 4 / 5 := by
    norm_num [refract_cosi, Vec3.dot]
  have hk : refract_final_k (⟨-4 / 5, 3 / 5, 0⟩ : Vec3 ℝ) ⟨1, 0, 0⟩ (1 / 2) 1 < 0 := by
    unfold refract_final_k
    rw [if_neg (by rw [hc]; norm_num), hc]
    norm_num [refract_k]
  refine ⟨by rw [hc]; norm_num, by rw [hc]; norm_num [refract_k], ?_⟩
  rw [refract_total_reflection _ _ _ _ _ hk, hc]
  simp only [Vec3.scale, Vec3.add, ne_eq, Vec3.mk.injEq, not_and]
  norm_num

/-- C10: whenever total internal reflection occurs (`k < 0`), `refract` returns one fixed
direction, the same for all such inputs whatever `I`, `N` and the two indices are; and
`cast_ray` does not suppress the refraction branch: on a hit (at `point`, with normal `N`)
at depth `<= 4` with total internal reflection it still casts the refraction ray, along
that fixed direction normalised, and adds its colour weighted by `albedo[3]`. -/
theorem C10_total_reflection_not_suppressed (m : CMath α) :
    (∃ v : Vec3 α, ∀ (I N : Vec3 α) (eta_t eta_i : α),
      refract_final_k I N eta_t eta_i < 0 → refract m I N eta_t eta_i = v) ∧
    (∀ (orig dir : Vec3 α) (spheres : List (Sphere α)) (lights : List (Light α))
      (depth : Nat) (dist : α) (point N : Vec3 α) (material : Material α),
      scene_intersect m orig dir spheres Vec3.zero Vec3.zero Material.default =
        ⟨dist, point, N, material⟩ →
      depth ≤ 4 → dist < 1000 →
      refract_final_k dir N material.refractive_index 1 < 0 →
      cast_ray m orig dir spheres lights depth =
        combine material
          (light_loop m spheres lights dir point N material).1
          (light_loop m spheres lights dir point N material).2
          (cast_ray m (offset_orig ((reflect dir N).normalize m) point N)
            ((reflect dir N).normalize m) spheres lights (depth + 1))
          (cast_ray m (offset_orig ((⟨1, 0, 0⟩ : Vec3 α).normalize m) point N)
            ((⟨1, 0, 0⟩ : Vec3 α).normalize m) spheres lights (depth + 1))) := by
  refine ⟨⟨⟨1, 0, 0⟩, fun I N eta_t eta_i hk => refract_total_reflection m I N eta_t eta_i hk⟩,
    ?_⟩
  intro orig dir spheres lights depth dist point N material hsi hd hf hk
  have hfound : SceneHit.found (⟨dist, point, N, material⟩ : SceneHit α) = true := by
    simp only [SceneHit.found, decide_eq_true_eq]; exact hf
  rw [cast_ray_hit m orig dir spheres lights depth ⟨dist, point, N, material⟩ hsi.symm hd
    hfound]
  simp only
  rw [refract_total_reflection m dir N material.refractive_index 1 hk]

theorem sqrtf_unique (m : CMath α) (hm : ExactSqrt m) (x y : α) (hy : 0 ≤ y)
    (hxy : y * y = x) : m.sqrtf x = y := by
  rw [← hxy]
  exact sqrtf_mul_self m hm y hy

theorem norm_mul_self (m : CMath α) (hm : ExactSqrt m) (v : Vec3 α) :
    0 ≤ v.norm m ∧ v.norm m * v.norm m = v.dot v :=
  hm _ (add_nonneg (add_nonneg (mul_self_nonneg _) (mul_self_nonneg _)) (mul_self_nonneg _))

theorem normalize_dot_self (m : CMath α) (hm : ExactSqrt m) (v : Vec3 α)
    (hv : 0 < v.norm m) : (v.normalize m).dot (v.normalize m) = 1 := by
  have h := (norm_mul_self m hm v).2
  have hne : v.norm m ≠ 0 := ne_of_gt hv
  simp only [Vec3.dot] at h
  simp only [Vec3.normalize, Vec3.scale, Vec3.dot]
  field_simp
  linear_combination -h

theorem norm_scale_unit (m : CMath α) (hm : ExactSqrt m) (v : Vec3 α) (t : α)
    (hv : v.dot v = 1) (ht : 0 ≤ t) : (v.scale t).norm m = t := by
  apply sqrtf_unique m hm _ t ht
  simp only [Vec3.dot] at hv
  simp only [Vec3.scale]
  linear_combination (-(t * t)) * hv

theorem shadow_hit (m : CMath α) (hm : ExactSqrt m) (so ld : Vec3 α)
    (spheres : List (Sphere α)) (hit0 N0 : Vec3 α) (mat0 : Material α)
    (hld : ld.dot ld = 1) (s : Sphere α) (hs : s ∈ spheres) (t D : α)
    (hray : s.ray_intersect m so ld = some t) (hh : t < 1000) (hD : t < D) :
    (scene_intersect m so ld spheres hit0 N0 mat0).found = true ∧
    ((scene_intersect m so ld spheres hit0 N0 mat0).hit.sub so).norm m < D := by
  have hmax := @FLT_MAX_gt α _
  unfold scene_intersect
  rcases scene_fold_spec m so ld spheres ⟨FLT_MAX, hit0, N0, mat0⟩ with
    ⟨_, hall⟩ | ⟨i, s2, t2, _, hs2, _, hmin, _, heq⟩
  · have := hall s hs t hray
    simp only at this
    linarith
  · rw [heq]
    have ht2 : t2 ≤ t := hmin s hs t hray
    have h0 : 0 ≤ t2 := ray_intersect_nonneg m s2 so ld t2 hs2
    have hsub : (so.add (ld.scale t2)).sub so = ld.scale t2 := by
      simp only [Vec3.add, Vec3.sub, Vec3.scale, add_sub_cancel_left]
    simp only [SceneHit.found, decide_eq_true_eq, hsub, norm_scale_unit m hm ld t2 hld h0]
    exact ⟨lt_of_le_of_lt ht2 hh, lt_of_le_of_lt ht2 hD⟩

theorem light_step_unshadowed (m : CMath α) (spheres : List (Sphere α)) (dir point N : Vec3 α)
    (material : Material α) (acc : α × α) (l : Light α)
    (h : (scene_intersect m (offset_orig ((l.position.sub point).normalize m) point N)
      ((l.position.sub point).normalize m) spheres Vec3.zero Vec3.zero
      Material.default).found = false) :
    light_step m spheres dir point N material acc l =
      (acc.1 + l.intensity * max 0 (((l.position.sub point).normalize m).dot N),
       acc.2 + m.powf (max 0 ((reflect ((l.position.sub point).normalize m).neg N).neg.dot dir))
          material.specular_exponent * l.intensity) := by
  simp only [light_step]
  rw [if_neg (by rw [h]; simp)]

theorem norm_axis (m : CMath α) (hm : ExactSqrt m) (d : α) (hd : 0 ≤ d) :
    Vec3.norm m ⟨0, 0, -d⟩ = d := by
  apply sqrtf_unique m hm _ d hd
  ring

theorem normalize_axis (m : CMath α) (hm : ExactSqrt m) (d : α) (hd : 0 < d) :
    Vec3.normalize m ⟨0, 0, -d⟩ = ⟨0, 0, -1⟩ := by
  have hne : d ≠ 0 := ne_of_gt hd
  simp only [Vec3.normalize, norm_axis m hm d hd.le, Vec3.scale, zero_mul, Vec3.mk.injEq,
    true_and]
  field_simp

theorem offset_orig_axis : offset_orig (⟨0, 0, -1⟩ : Vec3 α) ⟨0, 0, 0⟩ ⟨0, 0, -1⟩ =
    ⟨0, 0, -(1 / 1000)⟩ := by
  have h : ¬ ((⟨0, 0, -1⟩ : Vec3 α).dot ⟨0, 0, -1⟩ < 0) := by
    simp only [Vec3.dot]; norm_num
  simp only [offset_orig, if_neg h, Vec3.add, Vec3.scale, Vec3.mk.injEq]
  norm_num

theorem ray_intersect_axis_from (m : CMath α) (hm : ExactSqrt m) (a r d : α)
    (mat : Material α) (hr : 0 < r) (hd : r < d - a) :
    Sphere.ray_intersect m ⟨⟨0, 0, -d⟩, r, mat⟩ ⟨0, 0, -a⟩ ⟨0, 0, -1⟩ = some (d - a - r) := by
  have h1 : ¬ ((-d - -a) * (-d - -a) - (-d - -a) * -1 * ((-d - -a) * -1) > r * r) := by
    have : (-d - -a) * (-d - -a) - (-d - -a) * -1 * ((-d - -a) * -1) = 0 := by ring
    rw [this]; exact not_lt.mpr (mul_self_nonneg r)
  have h2 : r * r - ((-d - -a) * (-d - -a) - (-d - -a) * -1 * ((-d - -a) * -1)) = r * r := by
    ring
  have h3 : ¬ ((-d - -a) * -1 - r < 0) := by
    have : (-d - -a) * -1 - r = d - a - r := by ring
    rw [this]; linarith
  simp only [Sphere.ray_intersect, Vec3.sub, Vec3.dot, sub_zero, zero_mul, mul_zero, zero_add,
    add_zero, sub_self, if_neg h1, h2, sqrtf_mul_self m hm r hr.le, if_neg h3]
  congr 1
  ring

/-- C4 (amended): if some sphere of the scene is hit by the shadow ray, cast from the
offset point towards the light, at a distance that is strictly less than the distance to the
light and below the horizon `1000` of `scene_intersect`, then in `cast_ray` that light adds
exactly zero to both `diffuse_light_intensity` and `specular_light_intensity`. -/
theorem C4_shadowed_light_adds_nothing (m : CMath α) (hm : ExactSqrt m)
    (spheres : List (Sphere α)) (dir point N : Vec3 α) (material : Material α)
    (acc : α × α) (l : Light α) (s : Sphere α) (t : α) (hs : s ∈ spheres)
    (hray : s.ray_intersect m
      (offset_orig ((l.position.sub point).normalize m) point N)
      ((l.position.sub point).normalize m) = some t)
    (hlt : t < (l.position.sub point).norm m) (hh : t < 1000) :
    light_step m spheres dir point N material acc l = acc := by
  have h0 : 0 ≤ t := ray_intersect_nonneg m s _ _ t hray
  have hld := normalize_dot_self m hm (l.position.sub point) (lt_of_le_of_lt h0 hlt)
  have h := shadow_hit m hm _ _ spheres Vec3.zero Vec3.zero Material.default hld s hs t
    ((l.position.sub point).norm m) hray hh hlt
  simp only [light_step]
  rw [if_pos h]

/-- An instance of C4 (amended): the point `(0, 0, 0)` with normal `(0, 0, -1)`, the light at
`(0, 0, -10)` and the sphere of radius `1` centred at `(0, 0, -5)` between them: the shadow
ray hits the sphere at distance `3.999`, and the light adds nothing. -/
theorem C4_shadowed_light_adds_nothing_witness :
    Sphere.ray_intersect (⟨Real.sqrt, Real.rpow, Real.tan, Real.pi⟩ : CMath ℝ)
      ⟨⟨0, 0, -5⟩, 1, Material.default⟩
      (offset_orig ((Vec3.sub ⟨0, 0, -10⟩ ⟨0, 0, 0⟩).normalize
        (⟨Real.sqrt, Real.rpow, Real.tan, Real.pi⟩ : CMath ℝ)) ⟨0, 0, 0⟩ ⟨0, 0, -1⟩)
      ((Vec3.sub ⟨0, 0, -10⟩ ⟨0, 0, 0⟩).normalize
        (⟨Real.sqrt, Real.rpow, Real.tan, Real.pi⟩ : CMath ℝ)) = some (5 - 1 / 1000 - 1) ∧
    (5 - 1 / 1000 - 1 : ℝ) < (Vec3.sub ⟨0, 0, -10⟩ ⟨0, 0, 0⟩).norm
      (⟨Real.sqrt, Real.rpow, Real.tan, Real.pi⟩ : CMath ℝ) ∧
    (5 - 1 / 1000 - 1 : ℝ) < 1000 ∧
    light_step (⟨Real.sqrt, Real.rpow, Real.tan, Real.pi⟩ : CMath ℝ)
      [⟨⟨0, 0, -5⟩, 1, Material.default⟩] ⟨0, 0, -1⟩ ⟨0, 0, 0⟩ ⟨0, 0, -1⟩ Material.default
      (0, 0) ⟨⟨0, 0, -10⟩, 1⟩ = (0, 0) := by
  have hsub : Vec3.sub (⟨0, 0, -10⟩ : Vec3 ℝ) ⟨0, 0, 0⟩ = ⟨0, 0, -10⟩ := by
    simp only [Vec3.sub, sub_zero]
  have hray : Sphere.ray_intersect (⟨Real.sqrt, Real.rpow, Real.tan, Real.pi⟩ : CMath ℝ)
      ⟨⟨0, 0, -5⟩, 1, Material.default⟩
      (offset_orig ((Vec3.sub ⟨0, 0, -10⟩ ⟨0, 0, 0⟩).normalize
        (⟨Real.sqrt, Real.rpow, Real.tan, Real.pi⟩ : CMath ℝ)) ⟨0, 0, 0⟩ ⟨0, 0, -1⟩)
      ((Vec3.sub ⟨0, 0, -10⟩ ⟨0, 0, 0⟩).normalize
        (⟨Real.sqrt, Real.rpow, Real.tan, Real.pi⟩ : CMath ℝ)) = some (5 - 1 / 1000 - 1) := by
    rw [hsub, normalize_axis _ exactSqrt_real 10 (by norm_num), offset_orig_axis]
    exact ray_intersect_axis_from _ exactSqrt_real (1 / 1000) 1 5 _ (by norm_num) (by norm_num)
  have hlt : (5 - 1 / 1000 - 1 : ℝ) < (Vec3.sub ⟨0, 0, -10⟩ ⟨0, 0, 0⟩).norm
      (⟨Real.sqrt, Real.rpow, Real.tan, Real.pi⟩ : CMath ℝ) := by
    rw [hsub, norm_axis _ exactSqrt_real 10 (by norm_num)]
    norm_num
  exact ⟨hray, hlt, by norm_num,
    C4_shadowed_light_adds_nothing _ exactSqrt_real [⟨⟨0, 0, -5⟩, 1, Material.default⟩]
      ⟨0, 0, -1⟩ ⟨0, 0, 0⟩ ⟨0, 0, -1⟩ Material.default (0, 0) ⟨⟨0, 0, -10⟩, 1⟩
      ⟨⟨0, 0, -5⟩, 1, Material.default⟩ (5 - 1 / 1000 - 1) (by simp) hray hlt
      (by norm_num)⟩

/-- C4 as stated fails: the point `(0, 0, 0)` with normal `(0, 0, -1)`, the light of
intensity `1` at `(0, 0, -4000)` and the sphere of radius `1` centred at `(0, 0, -2000)`
between them. The shadow ray hits the sphere at distance `1998.999`, less than the distance
`4000` to the light, and the light still adds `1` to `diffuse_light_intensity`. -/
theorem C4_counterexample :
    Sphere.ray_intersect (⟨Real.sqrt, Real.rpow, Real.tan, Real.pi⟩ : CMath ℝ)
      ⟨⟨0, 0, -2000⟩, 1, Material.default⟩
      (offset_orig ((Vec3.sub ⟨0, 0, -4000⟩ ⟨0, 0, 0⟩).normalize
        (⟨Real.sqrt, Real.rpow, Real.tan, Real.pi⟩ : CMath ℝ)) ⟨0, 0, 0⟩ ⟨0, 0, -1⟩)
      ((Vec3.sub ⟨0, 0, -4000⟩ ⟨0, 0, 0⟩).normalize
        (⟨Real.sqrt, Real.rpow, Real.tan, Real.pi⟩ : CMath ℝ)) =
        some (2000 - 1 / 1000 - 1) ∧
    (2000 - 1 / 1000 - 1 : ℝ) < (Vec3.sub ⟨0, 0, -4000⟩ ⟨0, 0, 0⟩).norm
      (⟨Real.sqrt, Real.rpow, Real.tan, Real.pi⟩ : CMath ℝ) ∧
    (light_step (⟨Real.sqrt, Real.rpow, Real.tan, Real.pi⟩ : CMath ℝ)
      [⟨⟨0, 0, -2000⟩, 1, Material.default⟩] ⟨0, 0, -1⟩ ⟨0, 0, 0⟩ ⟨0, 0, -1⟩ Material.default
      (0, 0) ⟨⟨0, 0, -4000⟩, 1⟩).1 = 1 := by
  have hsub : Vec3.sub (⟨0, 0, -4000⟩ : Vec3 ℝ) ⟨0, 0, 0⟩ = ⟨0, 0, -4000⟩ := by
    simp only [Vec3.sub, sub_zero]
  have hn := normalize_axis _ exactSqrt_real (4000 : ℝ) (by norm_num)
  have hray := ray_intersect_axis_from _ exactSqrt_real (1 / 1000) 1 2000 Material.default
    (by norm_num) (by norm_num)
  have hfar : (2000 - 1 / 1000 - 1 : ℝ) < FLT_MAX := by unfold FLT_MAX; norm_num
  have hfound : (scene_intersect (⟨Real.sqrt, Real.rpow, Real.tan, Real.pi⟩ : CMath ℝ)
      ⟨0, 0, -(1 / 1000)⟩ ⟨0, 0, -1⟩ [⟨⟨0, 0, -2000⟩, 1, Material.default⟩] Vec3.zero
      Vec3.zero Material.default).found = false := by
    simp only [scene_intersect, List.foldl_cons, List.foldl_nil]
    rw [scene_step_near _ _ _ _ _ _ hray hfar]
    simp only [SceneHit.found, decide_eq_false_iff_not]
    norm_num
  refine ⟨?_, ?_, ?_⟩
  · rw [hsub, hn, offset_orig_axis]
    exact hray
  · rw [hsub, norm_axis _ exactSqrt_real 4000 (by norm_num)]
    norm_num
  · rw [light_step_unshadowed _ _ _ _ _ _ _ _ (by rw [hsub, hn, offset_orig_axis]; exact hfound)]
    rw [hsub, hn]
    simp only [Vec3.dot]
    norm_num

theorem tir_scene_ray :
    Sphere.ray_intersect (⟨Real.sqrt, Real.rpow, Real.tan, Real.pi⟩ : CMath ℝ)
      ⟨⟨3, 0, -10⟩, 5, ⟨1 / 2, ⟨0, 0, 0, 1⟩, ⟨1, 0, 0⟩, 2⟩⟩ ⟨0, 0, 0⟩ ⟨0, 0, -1⟩ = some 6 := by
  have h16 : Real.sqrt 16 = 4 :=
    sqrtf_unique ⟨Real.sqrt, Real.rpow, Real.tan, Real.pi⟩ exactSqrt_real 16 4 (by norm_num)
      (by norm_num)
  simp only [Sphere.ray_intersect, Vec3.sub, Vec3.dot]
  norm_num [h16]

theorem tir_scene_hit :
    scene_intersect (⟨Real.sqrt, Real.rpow, Real.tan, Real.pi⟩ : CMath ℝ)
        ⟨0, 0, 0⟩ ⟨0, 0, -1⟩ [⟨⟨3, 0, -10⟩, 5, ⟨1 / 2, ⟨0, 0, 0, 1⟩, ⟨1, 0, 0⟩, 2⟩⟩] Vec3.zero
        Vec3.zero Material.default =
      ⟨6, ⟨0, 0, -6⟩, ⟨-3 / 5, 0, 4 / 5⟩, ⟨1 / 2, ⟨0, 0, 0, 1⟩, ⟨1, 0, 0⟩, 2⟩⟩ := by
  have h25 : Real.sqrt 25 = 5 :=
    sqrtf_unique ⟨Real.sqrt, Real.rpow, Real.tan, Real.pi⟩ exactSqrt_real 25 5 (by norm_num)
      (by norm_num)
  have hfar : (6 : ℝ) < FLT_MAX := by unfold FLT_MAX; norm_num
  simp only [scene_intersect, List.foldl_cons, List.foldl_nil]
  rw [scene_step_near _ _ _ _ _ _ tir_scene_ray hfar]
  simp only [Vec3.add, Vec3.scale, Vec3.sub, Vec3.normalize, Vec3.norm]
  norm_num [h25]

theorem tir_scene_k :
    refract_final_k (⟨0, 0, -1⟩ : Vec3 ℝ) ⟨-3 / 5, 0, 4 / 5⟩ (1 / 2) 1 < 0 := by
  have hc : refract_cosi (⟨0, 0, -1⟩ : Vec3 ℝ) ⟨-3 / 5, 0, 4 / 5⟩ = 4 / 5 := by
    norm_num [refract_cosi, Vec3.dot]
  unfold refract_final_k
  rw [if_neg (by rw [hc]; norm_num), hc]
  norm_num [refract_k]

/-- An instance of C10: the ray from the origin along `(0, 0, -1)` hits the sphere of radius
`5` centred at `(3, 0, -10)`, of refractive index `1/2`, at `(0, 0, -6)` with normal
`(-3/5, 0, 4/5)`, where `k = -11/25`, and `cast_ray` still casts the refraction ray. -/
theorem C10_total_reflection_not_suppressed_witness :
    (scene_intersect (⟨Real.sqrt, Real.rpow, Real.tan, Real.pi⟩ : CMath ℝ)
        ⟨0, 0, 0⟩ ⟨0, 0, -1⟩ [⟨⟨3, 0, -10⟩, 5, ⟨1 / 2, ⟨0, 0, 0, 1⟩, ⟨1, 0, 0⟩, 2⟩⟩] Vec3.zero
        Vec3.zero Material.default =
      ⟨6, ⟨0, 0, -6⟩, ⟨-3 / 5, 0, 4 / 5⟩, ⟨1 / 2, ⟨0, 0, 0, 1⟩, ⟨1, 0, 0⟩, 2⟩⟩ ∧
      0 ≤ 4 ∧ (6 : ℝ) < 1000 ∧
      refract_final_k (⟨0, 0, -1⟩ : Vec3 ℝ) ⟨-3 / 5, 0, 4 / 5⟩ (1 / 2) 1 < 0) ∧
    cast_ray (⟨Real.sqrt, Real.rpow, Real.tan, Real.pi⟩ : CMath ℝ) ⟨0, 0, 0⟩ ⟨0, 0, -1⟩
        [⟨⟨3, 0, -10⟩, 5, ⟨1 / 2, ⟨0, 0, 0, 1⟩, ⟨1, 0, 0⟩, 2⟩⟩] [⟨⟨0, 3, 0⟩, 1⟩] 0 =
      combine ⟨1 / 2, ⟨0, 0, 0, 1⟩, ⟨1, 0, 0⟩, 2⟩
        (light_loop (⟨Real.sqrt, Real.rpow, Real.tan, Real.pi⟩ : CMath ℝ)
          [⟨⟨3, 0, -10⟩, 5, ⟨1 / 2, ⟨0, 0, 0, 1⟩, ⟨1, 0, 0⟩, 2⟩⟩] [⟨⟨0, 3, 0⟩, 1⟩] ⟨0, 0, -1⟩
          ⟨0, 0, -6⟩ ⟨-3 / 5, 0, 4 / 5⟩ ⟨1 / 2, ⟨0, 0, 0, 1⟩, ⟨1, 0, 0⟩, 2⟩).1
        (light_loop (⟨Real.sqrt, Real.rpow, Real.tan, Real.pi⟩ : CMath ℝ)
          [⟨⟨3, 0, -10⟩, 5, ⟨1 / 2, ⟨0, 0, 0, 1⟩, ⟨1, 0, 0⟩, 2⟩⟩] [⟨⟨0, 3, 0⟩, 1⟩] ⟨0, 0, -1⟩
          ⟨0, 0, -6⟩ ⟨-3 / 5, 0, 4 / 5⟩ ⟨1 / 2, ⟨0, 0, 0, 1⟩, ⟨1, 0, 0⟩, 2⟩).2
        (cast_ray (⟨Real.sqrt, Real.rpow, Real.tan, Real.pi⟩ : CMath ℝ)
          (offset_orig ((reflect ⟨0, 0, -1⟩ ⟨-3 / 5, 0, 4 / 5⟩).normalize
            (⟨Real.sqrt, Real.rpow, Real.tan, Real.pi⟩ : CMath ℝ)) ⟨0, 0, -6⟩
            ⟨-3 / 5, 0, 4 / 5⟩)
          ((reflect ⟨0, 0, -1⟩ ⟨-3 / 5, 0, 4 / 5⟩).normalize
            (⟨Real.sqrt, Real.rpow, Real.tan, Real.pi⟩ : CMath ℝ))
          [⟨⟨3, 0, -10⟩, 5, ⟨1 / 2, ⟨0, 0, 0, 1⟩, ⟨1, 0, 0⟩, 2⟩⟩] [⟨⟨0, 3, 0⟩, 1⟩] (0 + 1))
        (cast_ray (⟨Real.sqrt, Real.rpow, Real.tan, Real.pi⟩ : CMath ℝ)
          (offset_orig ((⟨1, 0, 0⟩ : Vec3 ℝ).normalize
            (⟨Real.sqrt, Real.rpow, Real.tan, Real.pi⟩ : CMath ℝ)) ⟨0, 0, -6⟩
            ⟨-3 / 5, 0, 4 / 5⟩)
          ((⟨1, 0, 0⟩ : Vec3 ℝ).normalize
            (⟨Real.sqrt, Real.rpow, Real.tan, Real.pi⟩ : CMath ℝ))
          [⟨⟨3, 0, -10⟩, 5, ⟨1 / 2, ⟨0, 0, 0, 1⟩, ⟨1, 0, 0⟩, 2⟩⟩] [⟨⟨0, 3, 0⟩, 1⟩] (0 + 1)) :=
  ⟨⟨tir_scene_hit, Nat.zero_le 4, by norm_num, tir_scene_k⟩,
    (C10_total_reflection_not_suppressed
      (⟨Real.sqrt, Real.rpow, Real.tan, Real.pi⟩ : CMath ℝ)).2 ⟨0, 0, 0⟩ ⟨0, 0, -1⟩
      [⟨⟨3, 0, -10⟩, 5, ⟨1 / 2, ⟨0, 0, 0, 1⟩, ⟨1, 0, 0⟩, 2⟩⟩] [⟨⟨0, 3, 0⟩, 1⟩] 0 6 ⟨0, 0, -6⟩
      ⟨-3 / 5, 0, 4 / 5⟩ ⟨1 / 2, ⟨0, 0, 0, 1⟩, ⟨1, 0, 0⟩, 2⟩ tir_scene_hit (Nat.zero_le 4)
      (by norm_num) tir_scene_k⟩

theorem refract_cosi_neg_iff (I N : Vec3 α) : refract_cosi I N < 0 ↔ 0 < I.dot N := by
  unfold refract_cosi
  generalize I.dot N = d
  simp only [min_def, max_def]
  split_ifs <;> constructor <;> intro h <;> linarith

theorem refract_calls_of_nonneg (I N : Vec3 α) (eta_t eta_i : α)
    (h : ¬ refract_cosi I N < 0) : refract_calls I N eta_t eta_i = 0 := by
  rw [refract_calls, if_neg h]

theorem refract_calls_of_neg (I N : Vec3 α) (eta_t eta_i : α)
    (h : refract_cosi I N < 0) : refract_calls I N eta_t eta_i = 1 := by
  have h2 : ¬ refract_cosi I N.neg < 0 := by rw [refract_cosi_neg]; linarith
  rw [refract_calls, if_pos h, refract_calls_of_nonneg I N.neg eta_i eta_t h2]

/-- C19: `refract` is total and calls itself at most once: when `I * N > 0` it makes exactly
one recursive call, on `(I, -N, eta_i, eta_t)`, whose `cosi` is positive, so that this call
takes the non-recursive branch; when `I * N <= 0` it makes none. -/
theorem C19_refract_recursion (m : CMath α) (I N : Vec3 α) (eta_t eta_i : α) :
    refract_calls I N eta_t eta_i ≤ 1 ∧
    (0 < I.dot N →
      refract_cosi I N < 0 ∧ 0 < refract_cosi I N.neg ∧
      refract_calls I N eta_t eta_i = 1 ∧ refract_calls I N.neg eta_i eta_t = 0 ∧
      refract m I N eta_t eta_i = refract m I N.neg eta_i eta_t ∧
      refract m I N.neg eta_i eta_t = refract_body m I N.neg eta_i eta_t) ∧
    (I.dot N ≤ 0 →
      ¬ refract_cosi I N < 0 ∧ refract_calls I N eta_t eta_i = 0 ∧
      refract m I N eta_t eta_i = refract_body m I N eta_t eta_i) := by
  refine ⟨?_, fun h => ?_, fun h => ?_⟩
  · by_cases hc : refract_cosi I N < 0
    · rw [refract_calls_of_neg I N eta_t eta_i hc]
    · rw [refract_calls_of_nonneg I N eta_t eta_i hc]; exact Nat.zero_le 1
  · have hc : refract_cosi I N < 0 := (refract_cosi_neg_iff I N).mpr h
    have hpos : 0 < refract_cosi I N.neg := by rw [refract_cosi_neg]; linarith
    have hn : ¬ refract_cosi I N.neg < 0 := not_lt.mpr hpos.le
    refine ⟨hc, hpos, refract_calls_of_neg I N eta_t eta_i hc,
      refract_calls_of_nonneg I N.neg eta_i eta_t hn, ?_,
      refract_of_nonneg m I N.neg eta_i eta_t hn⟩
    rw [refract_of_neg m I N eta_t eta_i hc, refract_of_nonneg m I N.neg eta_i eta_t hn]
  · have hc : ¬ refract_cosi I N < 0 := fun hc =>
      absurd ((refract_cosi_neg_iff I N).mp hc) (not_lt.mpr h)
    exact ⟨hc, refract_calls_of_nonneg I N eta_t eta_i hc,
      refract_of_nonneg m I N eta_t eta_i hc⟩

/-- An instance of C19: `I = (0, 0, 1)` leaves the surface of normal `(0, 0, 1)` from the
inside (one recursive call); `I = (0, 0, -1)` enters it (none). -/
theorem C19_refract_recursion_witness :
    (0 < (⟨0, 0, 1⟩ : Vec3 ℚ).dot ⟨0, 0, 1⟩ ∧
      refract_calls (⟨0, 0, 1⟩ : Vec3 ℚ) ⟨0, 0, 1⟩ (3 / 2) 1 = 1) ∧
    ((⟨0, 0, -1⟩ : Vec3 ℚ).dot ⟨0, 0, 1⟩ ≤ 0 ∧
      refract_calls (⟨0, 0, -1⟩ : Vec3 ℚ) ⟨0, 0, 1⟩ (3 / 2) 1 = 0) :=
  ⟨⟨by norm_num [Vec3.dot],
      ((C19_refract_recursion ratMath ⟨0, 0, 1⟩ ⟨0, 0, 1⟩ (3 / 2) 1).2.1
        (by norm_num [Vec3.dot])).2.2.1⟩,
    ⟨by norm_num [Vec3.dot],
      ((C19_refract_recursion ratMath ⟨0, 0, -1⟩ ⟨0, 0, 1⟩ (3 / 2) 1).2.2
        (by norm_num [Vec3.dot])).2.1⟩⟩

theorem refract_body_eta_one (m : CMath α) (hm : ExactSqrt m) (I N : Vec3 α)
    (eta_t eta_i : α) (heta : eta_i / eta_t = 1) (hc : ¬ refract_cosi I N < 0) :
    refract_body m I N eta_t eta_i = I := by
  have hk : refract_k 1 (refract_cosi I N) = refract_cosi I N * refract_cosi I N := by
    unfold refract_k; ring
  have hk0 : ¬ (refract_cosi I N * refract_cosi I N < 0) :=
    not_lt.mpr (mul_self_nonneg _)
  simp only [refract_body, heta, hk, if_neg hk0,
    sqrtf_mul_self m hm _ (not_lt.mp hc), one_mul, sub_self, Vec3.add, Vec3.scale, mul_one,
    mul_zero, add_zero]

theorem refract_k_eta_one (c : α) : ¬ refract_k 1 c < 0 := by
  have hk : refract_k 1 c = c * c := by unfold refract_k; ring
  rw [hk]
  exact not_lt.mpr (mul_self_nonneg _)

theorem refract_equal_indices (m : CMath α) (hm : ExactSqrt m) (I N : Vec3 α) (n : α)
    (hn : n ≠ 0) : refract m I N n n = I ∧ ¬ refract_final_k I N n n < 0 := by
  have heta : n / n = 1 := div_self hn
  constructor
  · by_cases hc : refract_cosi I N < 0
    · have h2 : ¬ refract_cosi I N.neg < 0 := by rw [refract_cosi_neg]; linarith
      rw [refract_of_neg m I N n n hc]
      exact refract_body_eta_one m hm I N.neg n n heta h2
    · rw [refract_of_nonneg m I N n n hc]
      exact refract_body_eta_one m hm I N n n heta hc
  · unfold refract_final_k
    rw [heta]
    split_ifs <;> exact refract_k_eta_one _

/-- C20: with equal indices `refract` returns the incoming direction unchanged, at every
angle of incidence and from either side of the surface: for every `I` and `N`,
`refract(I, N, 1, 1) = I`, and total internal reflection (`k < 0`) does not occur; the same
holds for every common index `n` other than `0`. -/
theorem C20_refract_equal_indices (m : CMath α) (hm : ExactSqrt m) (I N : Vec3 α) :
    refract m I N 1 1 = I ∧ ¬ refract_final_k I N 1 1 < 0 ∧
    ∀ n : α, n ≠ 0 → refract m I N n n = I ∧ ¬ refract_final_k I N n n < 0 :=
  ⟨(refract_equal_indices m hm I N 1 one_ne_zero).1,
    (refract_equal_indices m hm I N 1 one_ne_zero).2,
    fun n hn => refract_equal_indices m hm I N n hn⟩

/-- An instance of C20: an oblique direction leaving the surface from the inside, with both
indices `3/2`. -/
theorem C20_refract_equal_indices_witness :
    (3 / 2 : ℝ) ≠ 0 ∧
    refract (⟨Real.sqrt, Real.rpow, Real.tan, Real.pi⟩ : CMath ℝ) ⟨3 / 5, 0, 4 / 5⟩ ⟨0, 0, 1⟩
      (3 / 2) (3 / 2) = ⟨3 / 5, 0, 4 / 5⟩ :=
  ⟨by norm_num,
    ((C20_refract_equal_indices _ exactSqrt_real ⟨3 / 5, 0, 4 / 5⟩ ⟨0, 0, 1⟩).2.2 (3 / 2)
      (by norm_num)).1⟩

theorem cast_ray_cutoff (m : CMath α) (orig dir : Vec3 α) (spheres : List (Sphere α))
    (lights : List (Light α)) (depth : Nat) (h : 5 ≤ depth) :
    cast_ray m orig dir spheres lights depth = background := by
  have h4 : depth > 4 := h
  rw [cast_ray]
  simp only [dif_pos h4]

theorem cast_ray_counted_cutoff (m : CMath α) (orig dir : Vec3 α) (spheres : List (Sphere α))
    (lights : List (Light α)) (depth : Nat) (h : 5 ≤ depth) :
    cast_ray_counted m orig dir spheres lights depth = (background, 1, 0) := by
  have h4 : depth > 4 := h
  rw [cast_ray_counted]
  simp only [dif_pos h4]

theorem cast_ray_counted_miss (m : CMath α) (orig dir : Vec3 α) (spheres : List (Sphere α))
    (lights : List (Light α)) (depth : Nat)
    (hf : (scene_intersect m orig dir spheres Vec3.zero Vec3.zero
      Material.default).found = false) :
    cast_ray_counted m orig dir spheres lights depth = (background, 1, 0) := by
  rw [cast_ray_counted]
  simp only [hf, if_true]
  split_ifs <;> rfl

theorem cast_ray_miss (m : CMath α) (orig dir : Vec3 α) (spheres : List (Sphere α))
    (lights : List (Light α)) (depth : Nat)
    (hf : (scene_intersect m orig dir spheres Vec3.zero Vec3.zero
      Material.default).found = false) :
    cast_ray m orig dir spheres lights depth = background := by
  rw [cast_ray]
  simp only [hf, if_true]
  split_ifs <;> rfl

theorem cast_ray_counted_hit (m : CMath α) (orig dir : Vec3 α) (spheres : List (Sphere α))
    (lights : List (Light α)) (depth : Nat) (si : SceneHit α)
    (hsi : si = scene_intersect m orig dir spheres Vec3.zero Vec3.zero Material.default)
    (hd : depth ≤ 4) (hf : si.found = true) :
    cast_ray_counted m orig dir spheres lights depth =
      (combine si.material
        (light_loop m spheres lights dir si.hit si.N si.material).1
        (light_loop m spheres lights dir si.hit si.N si.material).2
        (cast_ray_counted m (offset_orig ((reflect dir si.N).normalize m) si.hit si.N)
          ((reflect dir si.N).normalize m) spheres lights (depth + 1)).1
        (cast_ray_counted m
          (offset_orig ((refract m dir si.N si.material.refractive_index 1).normalize m)
            si.hit si.N)
          ((refract m dir si.N si.material.refractive_index 1).normalize m) spheres lights
          (depth + 1)).1,
       (cast_ray_counted m (offset_orig ((reflect dir si.N).normalize m) si.hit si.N)
          ((reflect dir si.N).normalize m) spheres lights (depth + 1)).2.1 +
        (cast_ray_counted m
          (offset_orig ((refract m dir si.N si.material.refractive_index 1).normalize m)
            si.hit si.N)
          ((refract m dir si.N si.material.refractive_index 1).normalize m) spheres lights
          (depth + 1)).2.1,
       1 + max
        (cast_ray_counted m (offset_orig ((reflect dir si.N).normalize m) si.hit si.N)
          ((reflect dir si.N).normalize m) spheres lights (depth + 1)).2.2
        (cast_ray_counted m
          (offset_orig ((refract m dir si.N si.material.refractive_index 1).normalize m)
            si.hit si.N)
          ((refract m dir si.N si.material.refractive_index 1).normalize m) spheres lights
          (depth + 1)).2.2) := by
  have h4 : ¬ depth > 4 := by omega
  have hff : ¬ si.found = false := by rw [hf]; simp
  rw [cast_ray_counted]
  simp only [dif_neg h4, ← hsi]
  rw [if_neg hff]

theorem cast_ray_counted_spec (m : CMath α) (spheres : List (Sphere α))
    (lights : List (Light α)) (n : Nat) :
    ∀ (depth : Nat) (orig dir : Vec3 α), 5 - depth ≤ n →
      (cast_ray_counted m orig dir spheres lights depth).1 =
        cast_ray m orig dir spheres lights depth ∧
      (cast_ray_counted m orig dir spheres lights depth).2.1 ≤ 2 ^ (5 - depth) ∧
      (cast_ray_counted m orig dir spheres lights depth).2.2 ≤ 5 - depth := by
  induction n with
  | zero =>
    intro depth orig dir h
    have h5 : 5 ≤ depth := by omega
    rw [cast_ray_counted_cutoff m orig dir spheres lights depth h5,
      cast_ray_cutoff m orig dir spheres lights depth h5]
    exact ⟨rfl, Nat.one_le_two_pow, Nat.zero_le _⟩
  | succ n ih =>
    intro depth orig dir h
    by_cases h5 : 5 ≤ depth
    · rw [cast_ray_counted_cutoff m orig dir spheres lights depth h5,
        cast_ray_cutoff m orig dir spheres lights depth h5]
      exact ⟨rfl, Nat.one_le_two_pow, Nat.zero_le _⟩
    · have hd : depth ≤ 4 := by omega
      by_cases hf : (scene_intersect m orig dir spheres Vec3.zero Vec3.zero
          Material.default).found = true
      · rw [cast_ray_counted_hit m orig dir spheres lights depth _ rfl hd hf,
          cast_ray_hit m orig dir spheres lights depth _ rfl hd hf]
        have hn : 5 - (depth + 1) ≤ n := by omega
        obtain ⟨a1, a2, a3⟩ := ih (depth + 1) _ _ hn
        obtain ⟨b1, b2, b3⟩ := ih (depth + 1) _ _ hn
        refine ⟨by simp only; rw [a1, b1], ?_, ?_⟩
        · have hp : 2 ^ (5 - depth) = 2 ^ (5 - (depth + 1)) + 2 ^ (5 - (depth + 1)) := by
            have : 5 - depth = (5 - (depth + 1)) + 1 := by omega
            rw [this, pow_succ]; omega
          simp only
          rw [hp]
          exact Nat.add_le_add a2 b2
        · simp only
          have := max_le a3 b3
          omega
      · have hff : (scene_intersect m orig dir spheres Vec3.zero Vec3.zero
            Material.default).found = false := by simpa using hf
        rw [cast_ray_counted_miss m orig dir spheres lights depth hff,
          cast_ray_miss m orig dir spheres lights depth hff]
        exact ⟨rfl, Nat.one_le_two_pow, Nat.zero_le _⟩

/-- C11: `cast_ray` is total, and its call tree is bounded: a call at depth `>= 5` returns
without recursing; a hit at depth `<= 4` spawns exactly one reflection call and one
refraction call, both at `depth + 1`; so the call tree of a call at `depth` has height at
most `5 - depth` and at most `2 ^ (5 - depth)` leaves, that is height at most `5` and at
most `32` leaf calls for a primary ray at depth `0`. The instrumented `cast_ray_counted`
returns the colour of `cast_ray` with these two counts. -/
theorem C11_cast_ray_call_tree (m : CMath α) (spheres : List (Sphere α))
    (lights : List (Light α)) :
    (∀ (orig dir : Vec3 α) (depth : Nat),
      (cast_ray_counted m orig dir spheres lights depth).1 =
        cast_ray m orig dir spheres lights depth) ∧
    (∀ (orig dir : Vec3 α) (depth : Nat), 5 ≤ depth →
      (cast_ray_counted m orig dir spheres lights depth).2 = (1, 0)) ∧
    (∀ (orig dir : Vec3 α) (depth : Nat) (dist : α) (point N : Vec3 α)
      (material : Material α),
      scene_intersect m orig dir spheres Vec3.zero Vec3.zero Material.default =
        ⟨dist, point, N, material⟩ →
      depth ≤ 4 → dist < 1000 →
      (cast_ray_counted m orig dir spheres lights depth).2.1 =
        (cast_ray_counted m (offset_orig ((reflect dir N).normalize m) point N)
          ((reflect dir N).normalize m) spheres lights (depth + 1)).2.1 +
        (cast_ray_counted m
          (offset_orig ((refract m dir N material.refractive_index 1).normalize m) point N)
          ((refract m dir N material.refractive_index 1).normalize m) spheres lights
          (depth + 1)).2.1 ∧
      (cast_ray_counted m orig dir spheres lights depth).2.2 =
        1 + max
          (cast_ray_counted m (offset_orig ((reflect dir N).normalize m) point N)
            ((reflect dir N).normalize m) spheres lights (depth + 1)).2.2
          (cast_ray_counted m
            (offset_orig ((refract m dir N material.refractive_index 1).normalize m) point N)
            ((refract m dir N material.refractive_index 1).normalize m) spheres lights
            (depth + 1)).2.2) ∧
    (∀ (orig dir : Vec3 α) (depth : Nat),
      (cast_ray_counted m orig dir spheres lights depth).2.1 ≤ 2 ^ (5 - depth) ∧
      (cast_ray_counted m orig dir spheres lights depth).2.2 ≤ 5 - depth) ∧
    (∀ (orig dir : Vec3 α),
      (cast_ray_counted m orig dir spheres lights 0).2.1 ≤ 32 ∧
      (cast_ray_counted m orig dir spheres lights 0).2.2 ≤ 5) := by
  refine ⟨fun orig dir depth =>
      (cast_ray_counted_spec m spheres lights (5 - depth) depth orig dir le_rfl).1,
    fun orig dir depth h => ?_, ?_,
    fun orig dir depth =>
      (cast_ray_counted_spec m spheres lights (5 - depth) depth orig dir le_rfl).2,
    fun orig dir => (cast_ray_counted_spec m spheres lights 5 0 orig dir le_rfl).2⟩
  · rw [cast_ray_counted_cutoff m orig dir spheres lights depth h]
  · intro orig dir depth dist point N material hsi hd hf
    have hfound : SceneHit.found (⟨dist, point, N, material⟩ : SceneHit α) = true := by
      simp only [SceneHit.found, decide_eq_true_eq]; exact hf
    rw [cast_ray_counted_hit m orig dir spheres lights depth ⟨dist, point, N, material⟩
      hsi.symm hd hfound]
    exact ⟨rfl, rfl⟩

/-- An instance of C11: at depth `5` the call is a leaf; the primary ray that hits the sphere
of radius `5` centred at `(3, 0, -10)` at `(0, 0, -6)` spawns its two calls at depth `1`. -/
theorem C11_cast_ray_call_tree_witness :
    (5 ≤ 5 ∧
      (cast_ray_counted (⟨Real.sqrt, Real.rpow, Real.tan, Real.pi⟩ : CMath ℝ) ⟨0, 0, 0⟩
        ⟨0, 0, -1⟩ [⟨⟨3, 0, -10⟩, 5, ⟨1 / 2, ⟨0, 0, 0, 1⟩, ⟨1, 0, 0⟩, 2⟩⟩] [⟨⟨0, 3, 0⟩, 1⟩]
        5).2 = (1, 0)) ∧
    ((0 ≤ 4 ∧ (6 : ℝ) < 1000) ∧
      (cast_ray_counted (⟨Real.sqrt, Real.rpow, Real.tan, Real.pi⟩ : CMath ℝ) ⟨0, 0, 0⟩
        ⟨0, 0, -1⟩ [⟨⟨3, 0, -10⟩, 5, ⟨1 / 2, ⟨0, 0, 0, 1⟩, ⟨1, 0, 0⟩, 2⟩⟩] [⟨⟨0, 3, 0⟩, 1⟩]
        0).2.1 =
      (cast_ray_counted (⟨Real.sqrt, Real.rpow, Real.tan, Real.pi⟩ : CMath ℝ)
        (offset_orig ((reflect ⟨0, 0, -1⟩ ⟨-3 / 5, 0, 4 / 5⟩).normalize
          (⟨Real.sqrt, Real.rpow, Real.tan, Real.pi⟩ : CMath ℝ)) ⟨0, 0, -6⟩
          ⟨-3 / 5, 0, 4 / 5⟩)
        ((reflect ⟨0, 0, -1⟩ ⟨-3 / 5, 0, 4 / 5⟩).normalize
          (⟨Real.sqrt, Real.rpow, Real.tan, Real.pi⟩ : CMath ℝ))
        [⟨⟨3, 0, -10⟩, 5, ⟨1 / 2, ⟨0, 0, 0, 1⟩, ⟨1, 0, 0⟩, 2⟩⟩] [⟨⟨0, 3, 0⟩, 1⟩]
        (0 + 1)).2.1 +
      (cast_ray_counted (⟨Real.sqrt, Real.rpow, Real.tan, Real.pi⟩ : CMath ℝ)
        (offset_orig ((refract (⟨Real.sqrt, Real.rpow, Real.tan, Real.pi⟩ : CMath ℝ)
          ⟨0, 0, -1⟩ ⟨-3 / 5, 0, 4 / 5⟩ (1 / 2) 1).normalize
          (⟨Real.sqrt, Real.rpow, Real.tan, Real.pi⟩ : CMath ℝ)) ⟨0, 0, -6⟩
          ⟨-3 / 5, 0, 4 / 5⟩)
        ((refract (⟨Real.sqrt, Real.rpow, Real.tan, Real.pi⟩ : CMath ℝ)
          ⟨0, 0, -1⟩ ⟨-3 / 5, 0, 4 / 5⟩ (1 / 2) 1).normalize
          (⟨Real.sqrt, Real.rpow, Real.tan, Real.pi⟩ : CMath ℝ))
        [⟨⟨3, 0, -10⟩, 5, ⟨1 / 2, ⟨0, 0, 0, 1⟩, ⟨1, 0, 0⟩, 2⟩⟩] [⟨⟨0, 3, 0⟩, 1⟩]
        (0 + 1)).2.1) :=
  ⟨⟨le_refl 5,
      (C11_cast_ray_call_tree (⟨Real.sqrt, Real.rpow, Real.tan, Real.pi⟩ : CMath ℝ)
        [⟨⟨3, 0, -10⟩, 5, ⟨1 / 2, ⟨0, 0, 0, 1⟩, ⟨1, 0, 0⟩, 2⟩⟩] [⟨⟨0, 3, 0⟩, 1⟩]).2.1
        ⟨0, 0, 0⟩ ⟨0, 0, -1⟩ 5 (le_refl 5)⟩,
    ⟨⟨Nat.zero_le 4, by norm_num⟩,
      ((C11_cast_ray_call_tree (⟨Real.sqrt, Real.rpow, Real.tan, Real.pi⟩ : CMath ℝ)
        [⟨⟨3, 0, -10⟩, 5, ⟨1 / 2, ⟨0, 0, 0, 1⟩, ⟨1, 0, 0⟩, 2⟩⟩] [⟨⟨0, 3, 0⟩, 1⟩]).2.2.1
        ⟨0, 0, 0⟩ ⟨0, 0, -1⟩ 0 6 ⟨0, 0, -6⟩ ⟨-3 / 5, 0, 4 / 5⟩
        ⟨1 / 2, ⟨0, 0, 0, 1⟩, ⟨1, 0, 0⟩, 2⟩ tir_scene_hit (Nat.zero_le 4)
        (by norm_num)).1⟩⟩

theorem cast_ray_optimized_cutoff (m : CMath α) (p q orig dir : Vec3 α)
    (spheres : List (Sphere α)) (lights : List (Light α)) (depth : Nat) (h : 5 ≤ depth) :
    cast_ray_optimized m p q orig dir spheres lights depth = background := by
  have h4 : depth > 4 := h
  rw [cast_ray_optimized]
  simp only [dif_pos h4]

theorem cast_ray_optimized_miss (m : CMath α) (p q orig dir : Vec3 α)
    (spheres : List (Sphere α)) (lights : List (Light α)) (depth : Nat)
    (hf : (scene_intersect m orig dir spheres Vec3.zero Vec3.zero
      Material.default).found = false) :
    cast_ray_optimized m p q orig dir spheres lights depth = background := by
  rw [cast_ray_optimized]
  simp only [hf, if_true]
  split_ifs <;> rfl

theorem cast_ray_optimized_hit (m : CMath α) (p q orig dir : Vec3 α)
    (spheres : List (Sphere α)) (lights : List (Light α)) (depth : Nat) (si : SceneHit α)
    (hsi : si = scene_intersect m orig dir spheres Vec3.zero Vec3.zero Material.default)
    (hd : depth ≤ 4) (hf : si.found = true) :
    cast_ray_optimized m p q orig dir spheres lights depth =
      combine si.material
        (light_loop m spheres lights dir si.hit si.N si.material).1
        (light_loop m spheres lights dir si.hit si.N si.material).2
        (if si.material.albedo.get 2 = 0 then p
          else cast_ray_optimized m p q
            (offset_orig ((reflect dir si.N).normalize m) si.hit si.N)
            ((reflect dir si.N).normalize m) spheres lights (depth + 1))
        (if si.material.albedo.get 3 = 0 then q
          else cast_ray_optimized m p q
            (offset_orig ((refract m dir si.N si.material.refractive_index 1).normalize m)
              si.hit si.N)
            ((refract m dir si.N si.material.refractive_index 1).normalize m) spheres lights
            (depth + 1)) := by
  have h4 : ¬ depth > 4 := by omega
  have hff : ¬ si.found = false := by rw [hf]; simp
  rw [cast_ray_optimized]
  simp only [dif_neg h4, ← hsi]
  rw [if_neg hff]

theorem combine_congr (material : Material α) (a b : α) (rc rc2 fc fc2 : Vec3 α)
    (h2 : rc.scale (material.albedo.get 2) = rc2.scale (material.albedo.get 2))
    (h3 : fc.scale (material.albedo.get 3) = fc2.scale (material.albedo.get 3)) :
    combine material a b rc fc = combine material a b rc2 fc2 := by
  simp only [combine, h2, h3]

theorem scale_zero_eq (v w : Vec3 α) : v.scale 0 = w.scale 0 := by
  simp only [Vec3.scale, mul_zero]

theorem cast_ray_optimized_spec (m : CMath α) (p q : Vec3 α) (spheres : List (Sphere α))
    (lights : List (Light α)) (n : Nat) :
    ∀ (depth : Nat) (orig dir : Vec3 α), 5 - depth ≤ n →
      cast_ray_optimized m p q orig dir spheres lights depth =
        cast_ray m orig dir spheres lights depth := by
  induction n with
  | zero =>
    intro depth orig dir h
    have h5 : 5 ≤ depth := by omega
    rw [cast_ray_optimized_cutoff m p q orig dir spheres lights depth h5,
      cast_ray_cutoff m orig dir spheres lights depth h5]
  | succ n ih =>
    intro depth orig dir h
    by_cases h5 : 5 ≤ depth
    · rw [cast_ray_optimized_cutoff m p q orig dir spheres lights depth h5,
        cast_ray_cutoff m orig dir spheres lights depth h5]
    · have hd : depth ≤ 4 := by omega
      by_cases hf : (scene_intersect m orig dir spheres Vec3.zero Vec3.zero
          Material.default).found = true
      · rw [cast_ray_optimized_hit m p q orig dir spheres lights depth _ rfl hd hf,
          cast_ray_hit m orig dir spheres lights depth _ rfl hd hf]
        have hn : 5 - (depth + 1) ≤ n := by omega
        apply combine_congr
        · split_ifs with h2
          · rw [h2]; exact scale_zero_eq _ _
          · rw [ih (depth + 1) _ _ hn]
        · split_ifs with h3
          · rw [h3]; exact scale_zero_eq _ _
          · rw [ih (depth + 1) _ _ hn]
      · have hff : (scene_intersect m orig dir spheres Vec3.zero Vec3.zero
            Material.default).found = false := by simpa using hf
        rw [cast_ray_optimized_miss m p q orig dir spheres lights depth hff,
          cast_ray_miss m orig dir spheres lights depth hff]

/-- C12: for every scene, ray and depth, `cast_ray` returns the same colour as the
optimised variant that skips the reflection recursion when `albedo[2]` of the hit material
is exactly zero and the refraction recursion when `albedo[3]` is exactly zero, whatever
placeholder colours stand for the skipped branches. -/
theorem C12_cast_ray_optimized_eq (m : CMath α) (skipped_reflect skipped_refract : Vec3 α)
    (orig dir : Vec3 α) (spheres : List (Sphere α)) (lights : List (Light α)) (depth : Nat) :
    cast_ray_optimized m skipped_reflect skipped_refract orig dir spheres lights depth =
      cast_ray m orig dir spheres lights depth :=
  cast_ray_optimized_spec m skipped_reflect skipped_refract spheres lights (5 - depth) depth
    orig dir le_rfl

theorem ray_intersect_locals (m : CMath α) (s : Sphere α) (orig dir : Vec3 α) :
    s.ray_intersect m orig dir =
      if s.d2 orig dir > s.radius * s.radius then none
      else if s.tca orig dir - s.thc m orig dir < 0 then
        (if s.tca orig dir + s.thc m orig dir < 0 then none
          else some (s.tca orig dir + s.thc m orig dir))
      else some (s.tca orig dir - s.thc m orig dir) := by
  simp only [Sphere.ray_intersect, Sphere.d2, Sphere.tca, Sphere.thc]
  split_ifs <;> rfl

theorem norm_eq_iff (m : CMath α) (hm : ExactSqrt m) (v : Vec3 α) (r : α) (hr : 0 ≤ r) :
    v.norm m = r ↔ v.dot v = r * r := by
  obtain ⟨h0, h1⟩ := norm_mul_self m hm v
  constructor
  · intro h; rw [← h1, h]
  · intro h
    rw [← h1] at h
    exact (mul_self_inj h0 hr).mp h

theorem ray_point_dist (s : Sphere α) (orig dir : Vec3 α) (t : α) (hd : dir.dot dir = 1) :
    ((orig.add (dir.scale t)).sub s.center).dot ((orig.add (dir.scale t)).sub s.center) =
      (t - s.tca orig dir) * (t - s.tca orig dir) + s.d2 orig dir := by
  simp only [Vec3.dot] at hd
  simp only [Sphere.d2, Sphere.tca, Vec3.dot, Vec3.sub, Vec3.add, Vec3.scale]
  linear_combination (t * t) * hd

theorem on_surface_iff (m : CMath α) (hm : ExactSqrt m) (s : Sphere α) (orig dir : Vec3 α)
    (t : α) (hd : dir.dot dir = 1) (hr : 0 ≤ s.radius) :
    ((orig.add (dir.scale t)).sub s.center).norm m = s.radius ↔
      (t - s.tca orig dir) * (t - s.tca orig dir) =
        s.radius * s.radius - s.d2 orig dir := by
  rw [norm_eq_iff m hm _ _ hr, ray_point_dist s orig dir t hd]
  constructor <;> intro h <;> linarith

theorem on_surface_roots (m : CMath α) (hm : ExactSqrt m) (s : Sphere α) (orig dir : Vec3 α)
    (t : α) (hd : dir.dot dir = 1) (hr : 0 ≤ s.radius)
    (h2 : ¬ s.d2 orig dir > s.radius * s.radius) :
    ((orig.add (dir.scale t)).sub s.center).norm m = s.radius ↔
      t = s.tca orig dir - s.thc m orig dir ∨ t = s.tca orig dir + s.thc m orig dir := by
  have hnn : 0 ≤ s.radius * s.radius - s.d2 orig dir := by linarith [not_lt.mp h2]
  obtain ⟨_, hsq⟩ := hm _ hnn
  rw [on_surface_iff m hm s orig dir t hd hr, ← hsq]
  change _ = s.thc m orig dir * s.thc m orig dir ↔ _
  rw [mul_self_eq_mul_self_iff]
  constructor
  · rintro (h | h)
    · right; linarith
    · left; linarith
  · rintro (h | h)
    · right; linarith
    · left; linarith

theorem ray_intersect_spec (m : CMath α) (hm : ExactSqrt m) (s : Sphere α)
    (orig dir : Vec3 α) (hd : dir.dot dir = 1) (hr : 0 ≤ s.radius) :
    ((∃ t, s.ray_intersect m orig dir = some t) ↔
      ∃ t, 0 ≤ t ∧ ((orig.add (dir.scale t)).sub s.center).norm m = s.radius) ∧
    (∀ t, s.ray_intersect m orig dir = some t →
      0 ≤ t ∧ ((orig.add (dir.scale t)).sub s.center).norm m = s.radius ∧
      (∀ t2, 0 ≤ t2 → ((orig.add (dir.scale t2)).sub s.center).norm m = s.radius →
        t ≤ t2) ∧
      t = (if 0 ≤ s.tca orig dir - s.thc m orig dir
        then s.tca orig dir - s.thc m orig dir else s.tca orig dir + s.thc m orig dir)) := by
  rw [ray_intersect_locals]
  by_cases h2 : s.d2 orig dir > s.radius * s.radius
  · rw [if_pos h2]
    refine ⟨⟨(fun ⟨t, h⟩ => by cases h), ?_⟩, (fun t h => by cases h)⟩
    rintro ⟨t, _, ht⟩
    rw [on_surface_iff m hm s orig dir t hd hr] at ht
    have := mul_self_nonneg (t - s.tca orig dir)
    linarith
  · rw [if_neg h2]
    have hnn : 0 ≤ s.radius * s.radius - s.d2 orig dir := by linarith [not_lt.mp h2]
    have hthc : 0 ≤ s.thc m orig dir := (hm _ hnn).1
    have hroots := fun t => on_surface_roots m hm s orig dir t hd hr h2
    by_cases h0 : s.tca orig dir - s.thc m orig dir < 0
    · rw [if_pos h0, if_neg (not_le.mpr h0)]
      by_cases h1 : s.tca orig dir + s.thc m orig dir < 0
      · rw [if_pos h1]
        refine ⟨⟨(fun ⟨t, h⟩ => by cases h), ?_⟩, (fun t h => by cases h)⟩
        rintro ⟨t, ht0, ht⟩
        rcases (hroots t).mp ht with h | h <;> linarith
      · rw [if_neg h1]
        refine ⟨⟨fun _ => ⟨_, not_lt.mp h1, (hroots _).mpr (Or.inr rfl)⟩,
          fun _ => ⟨_, rfl⟩⟩, ?_⟩
        intro t ht
        injection ht with ht
        subst ht
        refine ⟨not_lt.mp h1, (hroots _).mpr (Or.inr rfl), ?_, rfl⟩
        intro t2 ht2 hs2
        rcases (hroots t2).mp hs2 with h | h <;> linarith
    · rw [if_neg h0, if_pos (not_lt.mp h0)]
      refine ⟨⟨fun _ => ⟨_, not_lt.mp h0, (hroots _).mpr (Or.inl rfl)⟩,
        fun _ => ⟨_, rfl⟩⟩, ?_⟩
      intro t ht
      injection ht with ht
      subst ht
      refine ⟨not_lt.mp h0, (hroots _).mpr (Or.inl rfl), ?_, rfl⟩
      intro t2 ht2 hs2
      rcases (hroots t2).mp hs2 with h | h <;> linarith

/-- C14: for every sphere (of radius `>= 0`, which covers every sphere of the data model,
where the radius is positive), every origin and every direction of unit length,
`Sphere::ray_intersect` succeeds exactly when the ray meets the sphere surface at some
parameter `t >= 0` (`|orig + t * dir - center| = radius`), and on success the distance it
returns is the smallest such `t`: the near root `tca - thc` when that is non-negative,
otherwise the far root `tca + thc`. -/
theorem C14_ray_intersect_smallest_root (m : CMath α) (hm : ExactSqrt m) (s : Sphere α)
    (orig dir : Vec3 α) (hdir : dir.norm m = 1) (hr : 0 ≤ s.radius) :
    ((∃ t, s.ray_intersect m orig dir = some t) ↔
      ∃ t, 0 ≤ t ∧ ((orig.add (dir.scale t)).sub s.center).norm m = s.radius) ∧
    (∀ t, s.ray_intersect m orig dir = some t →
      0 ≤ t ∧ ((orig.add (dir.scale t)).sub s.center).norm m = s.radius ∧
      (∀ t2, 0 ≤ t2 → ((orig.add (dir.scale t2)).sub s.center).norm m = s.radius →
        t ≤ t2) ∧
      t = (if 0 ≤ s.tca orig dir - s.thc m orig dir
        then s.tca orig dir - s.thc m orig dir else s.tca orig dir + s.thc m orig dir)) :=
  ray_intersect_spec m hm s orig dir (norm_one_dot m hm dir hdir) hr

/-- An instance of C14: the sphere of radius `1` centred at `(0, 0, -3)` and the
ray from the origin along `(0, 0, -1)`; the distance returned is `3 - 1`. -/
theorem C14_ray_intersect_smallest_root_witness :
    (Vec3.norm (⟨Real.sqrt, Real.rpow, Real.tan, Real.pi⟩ : CMath ℝ) ⟨0, 0, -1⟩ = 1 ∧
      (0 : ℝ) ≤ 1 ∧
      Sphere.ray_intersect (⟨Real.sqrt, Real.rpow, Real.tan, Real.pi⟩ : CMath ℝ)
        ⟨⟨0, 0, -3⟩, 1, Material.default⟩ ⟨0, 0, 0⟩ ⟨0, 0, -1⟩ = some (3 - 1)) ∧
    (((⟨0, 0, 0⟩ : Vec3 ℝ).add ((⟨0, 0, -1⟩ : Vec3 ℝ).scale (3 - 1))).sub
      ⟨0, 0, -3⟩).norm (⟨Real.sqrt, Real.rpow, Real.tan, Real.pi⟩ : CMath ℝ) = 1 :=
  ⟨⟨by simp [Vec3.norm], zero_le_one,
      ray_intersect_axis _ exactSqrt_real 1 3 _ (by norm_num) (by norm_num)⟩,
    ((C14_ray_intersect_smallest_root (⟨Real.sqrt, Real.rpow, Real.tan, Real.pi⟩ : CMath ℝ)
      exactSqrt_real ⟨⟨0, 0, -3⟩, 1, Material.default⟩ ⟨0, 0, 0⟩ ⟨0, 0, -1⟩
      (by simp [Vec3.norm]) zero_le_one).2 (3 - 1)
      (ray_intersect_axis _ exactSqrt_real 1 3 _ (by norm_num) (by norm_num))).2.1⟩

theorem scene_intersect_selected (m : CMath α) (orig dir : Vec3 α)
    (spheres : List (Sphere α)) (hit0 N0 : Vec3 α) (mat0 : Material α)
    (hf : (scene_intersect m orig dir spheres hit0 N0 mat0).found = true) :
    ∃ (i : Nat) (s : Sphere α) (t : α), spheres[i]? = some s ∧
      s.ray_intersect m orig dir = some t ∧
      (∀ s2 ∈ spheres, ∀ t2, s2.ray_intersect m orig dir = some t2 → t ≤ t2) ∧
      (∀ (j : Nat) (s2 : Sphere α), j < i → spheres[j]? = some s2 →
        s2.ray_intersect m orig dir ≠ some t) ∧
      t < 1000 ∧
      scene_intersect m orig dir spheres hit0 N0 mat0 =
        ⟨t, orig.add (dir.scale t), ((orig.add (dir.scale t)).sub s.center).normalize m,
          s.material⟩ := by
  have hmax := @FLT_MAX_gt α _
  unfold scene_intersect at hf ⊢
  rcases scene_fold_spec m orig dir spheres ⟨FLT_MAX, hit0, N0, mat0⟩ with
    ⟨heq, _⟩ | ⟨i, s, t, hi, hs, _, hmin, hfirst, heq⟩
  · rw [heq] at hf
    simp only [SceneHit.found, decide_eq_true_eq] at hf
    linarith
  · rw [heq] at hf
    simp only [SceneHit.found, decide_eq_true_eq] at hf
    exact ⟨i, s, t, hi, hs, hmin, hfirst, hf, heq⟩

/-- C17: for every scene whose spheres all have radius `> 0` and every ray with direction of
unit length, whenever `scene_intersect` reports a hit, the reported point lies on the surface
of the sphere it selected (`|point - center| = radius`), and the reported normal is the unit
vector `(point - center) / radius`. -/
theorem C17_hit_on_selected_sphere (m : CMath α) (hm : ExactSqrt m) (orig dir : Vec3 α)
    (spheres : List (Sphere α)) (hit0 N0 : Vec3 α) (mat0 : Material α)
    (hrad : ∀ s ∈ spheres, 0 < s.radius) (hdir : dir.norm m = 1)
    (hf : (scene_intersect m orig dir spheres hit0 N0 mat0).found = true) :
    ∃ (i : Nat) (s : Sphere α) (t : α), spheres[i]? = some s ∧
      s.ray_intersect m orig dir = some t ∧
      (∀ s2 ∈ spheres, ∀ t2, s2.ray_intersect m orig dir = some t2 → t ≤ t2) ∧
      (∀ (j : Nat) (s2 : Sphere α), j < i → spheres[j]? = some s2 →
        s2.ray_intersect m orig dir ≠ some t) ∧
      (scene_intersect m orig dir spheres hit0 N0 mat0).material = s.material ∧
      (scene_intersect m orig dir spheres hit0 N0 mat0).hit = orig.add (dir.scale t) ∧
      ((scene_intersect m orig dir spheres hit0 N0 mat0).hit.sub s.center).norm m =
        s.radius ∧
      (scene_intersect m orig dir spheres hit0 N0 mat0).N =
        ((scene_intersect m orig dir spheres hit0 N0 mat0).hit.sub s.center).scale
          (1 / s.radius) ∧
      (scene_intersect m orig dir spheres hit0 N0 mat0).N.norm m = 1 := by
  obtain ⟨i, s, t, hi, hs, hmin, hfirst, _, heq⟩ :=
    scene_intersect_selected m orig dir spheres hit0 N0 mat0 hf
  have hmem : s ∈ spheres := List.mem_iff_getElem?.mpr ⟨i, hi⟩
  have hr : 0 < s.radius := hrad s hmem
  have hon := ((ray_intersect_spec m hm s orig dir (norm_one_dot m hm dir hdir) hr.le).2 t
    hs).2.1
  refine ⟨i, s, t, hi, hs, hmin, hfirst, ?_⟩
  rw [heq]
  simp only
  refine ⟨trivial, trivial, hon, ?_, ?_⟩
  · simp only [Vec3.normalize, hon]
  · have hd1 := normalize_dot_self m hm ((orig.add (dir.scale t)).sub s.center)
      (by rw [hon]; exact hr)
    rw [norm_eq_iff m hm _ 1 zero_le_one, hd1, mul_one]

/-- An instance of C17: the ray from the origin along `(0, 0, -1)` and the sphere of radius
`5` centred at `(3, 0, -10)`. -/
theorem C17_hit_on_selected_sphere_witness :
    ((∀ s ∈ [(⟨⟨3, 0, -10⟩, 5, ⟨1 / 2, ⟨0, 0, 0, 1⟩, ⟨1, 0, 0⟩, 2⟩⟩ : Sphere ℝ)],
        0 < s.radius) ∧
      Vec3.norm (⟨Real.sqrt, Real.rpow, Real.tan, Real.pi⟩ : CMath ℝ) ⟨0, 0, -1⟩ = 1 ∧
      (scene_intersect (⟨Real.sqrt, Real.rpow, Real.tan, Real.pi⟩ : CMath ℝ) ⟨0, 0, 0⟩
        ⟨0, 0, -1⟩ [⟨⟨3, 0, -10⟩, 5, ⟨1 / 2, ⟨0, 0, 0, 1⟩, ⟨1, 0, 0⟩, 2⟩⟩] Vec3.zero Vec3.zero
        Material.default).found = true) ∧
    ∃ (i : Nat) (s : Sphere ℝ) (t : ℝ),
      [(⟨⟨3, 0, -10⟩, 5, ⟨1 / 2, ⟨0, 0, 0, 1⟩, ⟨1, 0, 0⟩, 2⟩⟩ : Sphere ℝ)][i]? = some s ∧
      s.ray_intersect (⟨Real.sqrt, Real.rpow, Real.tan, Real.pi⟩ : CMath ℝ) ⟨0, 0, 0⟩
        ⟨0, 0, -1⟩ = some t ∧
      ((scene_intersect (⟨Real.sqrt, Real.rpow, Real.tan, Real.pi⟩ : CMath ℝ) ⟨0, 0, 0⟩
        ⟨0, 0, -1⟩ [⟨⟨3, 0, -10⟩, 5, ⟨1 / 2, ⟨0, 0, 0, 1⟩, ⟨1, 0, 0⟩, 2⟩⟩] Vec3.zero Vec3.zero
        Material.default).hit.sub s.center).norm
          (⟨Real.sqrt, Real.rpow, Real.tan, Real.pi⟩ : CMath ℝ) = s.radius ∧
      (scene_intersect (⟨Real.sqrt, Real.rpow, Real.tan, Real.pi⟩ : CMath ℝ) ⟨0, 0, 0⟩
        ⟨0, 0, -1⟩ [⟨⟨3, 0, -10⟩, 5, ⟨1 / 2, ⟨0, 0, 0, 1⟩, ⟨1, 0, 0⟩, 2⟩⟩] Vec3.zero Vec3.zero
        Material.default).N.norm (⟨Real.sqrt, Real.rpow, Real.tan, Real.pi⟩ : CMath ℝ) =
          1 := by
  have hrad : ∀ s ∈ [(⟨⟨3, 0, -10⟩, 5, ⟨1 / 2, ⟨0, 0, 0, 1⟩, ⟨1, 0, 0⟩, 2⟩⟩ : Sphere ℝ)],
      0 < s.radius := by
    intro s hs
    rw [List.mem_singleton] at hs
    rw [hs]
    norm_num
  have hdir : Vec3.norm (⟨Real.sqrt, Real.rpow, Real.tan, Real.pi⟩ : CMath ℝ) ⟨0, 0, -1⟩ =
      1 := by simp [Vec3.norm]
  have hf : (scene_intersect (⟨Real.sqrt, Real.rpow, Real.tan, Real.pi⟩ : CMath ℝ) ⟨0, 0, 0⟩
      ⟨0, 0, -1⟩ [⟨⟨3, 0, -10⟩, 5, ⟨1 / 2, ⟨0, 0, 0, 1⟩, ⟨1, 0, 0⟩, 2⟩⟩] Vec3.zero Vec3.zero
      Material.default).found = true := by
    rw [tir_scene_hit]
    simp only [SceneHit.found, decide_eq_true_eq]
    norm_num
  obtain ⟨i, s, t, hi, hs, _, _, _, _, hon, _, hN⟩ :=
    C17_hit_on_selected_sphere _ exactSqrt_real ⟨0, 0, 0⟩ ⟨0, 0, -1⟩
      [⟨⟨3, 0, -10⟩, 5, ⟨1 / 2, ⟨0, 0, 0, 1⟩, ⟨1, 0, 0⟩, 2⟩⟩] Vec3.zero Vec3.zero
      Material.default hrad hdir hf
  exact ⟨⟨hrad, hdir, hf⟩, i, s, t, hi, hs, hon, hN⟩

theorem dot_ge_neg_one (I N : Vec3 α) (hI : I.dot I = 1) (hN : N.dot N = 1) :
    -1 ≤ I.dot N := by
  simp only [Vec3.dot] at *
  nlinarith [mul_self_nonneg (I.x + N.x), mul_self_nonneg (I.y + N.y),
    mul_self_nonneg (I.z + N.z)]

/-- C15: for unit `I` and unit `N` with `I * N <= 0`, and indices with `eta = eta_i / eta_t`
and `k = 1 - eta^2 (1 - cosi^2) >= 0`, the direction `T = refract(I, N, eta_t, eta_i)` obeys
Snell's law: `T` has unit length, and its component perpendicular to `N` is `eta` times the
component of `I` perpendicular to `N`. -/
theorem C15_refract_snell (m : CMath α) (hm : ExactSqrt m) (I N : Vec3 α) (eta_t eta_i : α)
    (hI : I.norm m = 1) (hN : N.norm m = 1) (hIN : I.dot N ≤ 0)
    (hk : 0 ≤ refract_k (eta_i / eta_t) (refract_cosi I N)) :
    (refract m I N eta_t eta_i).norm m = 1 ∧
    (refract m I N eta_t eta_i).sub (N.scale ((refract m I N eta_t eta_i).dot N)) =
      (I.sub (N.scale (I.dot N))).scale (eta_i / eta_t) := by
  have hII := norm_one_dot m hm I hI
  have hNN := norm_one_dot m hm N hN
  have hge := dot_ge_neg_one I N hII hNN
  have hc : refract_cosi I N = -I.dot N := by
    unfold refract_cosi
    rw [min_eq_right (by linarith), max_eq_right hge]
  have hcn : ¬ refract_cosi I N < 0 := by rw [hc]; linarith
  rw [refract_of_nonneg m I N eta_t eta_i hcn]
  obtain ⟨hq0, hq⟩ := hm _ hk
  simp only [refract_body, if_neg (not_lt.mpr hk)]
  generalize m.sqrtf (refract_k (eta_i / eta_t) (refract_cosi I N)) = q at hq0 hq
  generalize eta_i / eta_t = eta at hq
  rw [hc] at hq ⊢
  unfold refract_k at hq
  obtain ⟨ix, iy, iz⟩ := I
  obtain ⟨nx, ny, nz⟩ := N
  simp only [Vec3.dot] at hII hNN hq
  constructor
  · rw [norm_eq_iff m hm _ 1 zero_le_one]
    simp only [Vec3.dot, Vec3.add, Vec3.scale]
    linear_combination (eta * eta) * hII +
      ((eta * -(ix * nx + iy * ny + iz * nz) - q) ^ 2) * hNN + hq
  · simp only [Vec3.dot, Vec3.add, Vec3.scale, Vec3.sub, Vec3.mk.injEq]
    refine ⟨?_, ?_, ?_⟩
    · linear_combination (q * nx + nx * eta * (ix * nx + iy * ny + iz * nz)) * hNN
    · linear_combination (q * ny + ny * eta * (ix * nx + iy * ny + iz * nz)) * hNN
    · linear_combination (q * nz + nz * eta * (ix * nx + iy * ny + iz * nz)) * hNN

/-- An instance of C15: `I = (3/5, 0, -4/5)` enters the surface of normal `(0, 0, 1)` with
`eta_t = 3/2`, `eta_i = 1`, where `k = 21/25`. -/
theorem C15_refract_snell_witness :
    (Vec3.norm (⟨Real.sqrt, Real.rpow, Real.tan, Real.pi⟩ : CMath ℝ) ⟨3 / 5, 0, -4 / 5⟩ = 1 ∧
      Vec3.norm (⟨Real.sqrt, Real.rpow, Real.tan, Real.pi⟩ : CMath ℝ) ⟨0, 0, 1⟩ = 1 ∧
      (⟨3 / 5, 0, -4 / 5⟩ : Vec3 ℝ).dot ⟨0, 0, 1⟩ ≤ 0 ∧
      0 ≤ refract_k ((1 : ℝ) / (3 / 2))
        (refract_cosi (⟨3 / 5, 0, -4 / 5⟩ : Vec3 ℝ) ⟨0, 0, 1⟩)) ∧
    (refract (⟨Real.sqrt, Real.rpow, Real.tan, Real.pi⟩ : CMath ℝ) ⟨3 / 5, 0, -4 / 5⟩
      ⟨0, 0, 1⟩ (3 / 2) 1).norm (⟨Real.sqrt, Real.rpow, Real.tan, Real.pi⟩ : CMath ℝ) = 1 := by
  have hI : Vec3.norm (⟨Real.sqrt, Real.rpow, Real.tan, Real.pi⟩ : CMath ℝ)
      ⟨3 / 5, 0, -4 / 5⟩ = 1 := by
    apply sqrtf_unique _ exactSqrt_real _ 1 zero_le_one
    norm_num
  have hN : Vec3.norm (⟨Real.sqrt, Real.rpow, Real.tan, Real.pi⟩ : CMath ℝ) ⟨0, 0, 1⟩ = 1 := by
    simp [Vec3.norm]
  have hIN : (⟨3 / 5, 0, -4 / 5⟩ : Vec3 ℝ).dot ⟨0, 0, 1⟩ ≤ 0 := by
    simp only [Vec3.dot]; norm_num
  have hc : refract_cosi (⟨3 / 5, 0, -4 / 5⟩ : Vec3 ℝ) ⟨0, 0, 1⟩ = 4 / 5 := by
    norm_num [refract_cosi, Vec3.dot]
  have hk : 0 ≤ refract_k ((1 : ℝ) / (3 / 2))
      (refract_cosi (⟨3 / 5, 0, -4 / 5⟩ : Vec3 ℝ) ⟨0, 0, 1⟩) := by
    rw [hc]; norm_num [refract_k]
  exact ⟨⟨hI, hN, hIN, hk⟩,
    (C15_refract_snell _ exactSqrt_real ⟨3 / 5, 0, -4 / 5⟩ ⟨0, 0, 1⟩ (3 / 2) 1 hI hN hIN
      hk).1⟩

theorem light_step_nonneg (m : CMath α) (hpow : ∀ x y : α, 0 ≤ x → 0 ≤ m.powf x y)
    (spheres : List (Sphere α)) (dir point N : Vec3 α) (material : Material α)
    (acc : α × α) (l : Light α) (hl : 0 ≤ l.intensity) (h1 : 0 ≤ acc.1) (h2 : 0 ≤ acc.2) :
    0 ≤ (light_step m spheres dir point N material acc l).1 ∧
    0 ≤ (light_step m spheres dir point N material acc l).2 := by
  simp only [light_step]
  split_ifs
  · exact ⟨h1, h2⟩
  · exact ⟨add_nonneg h1 (mul_nonneg hl (le_max_left _ _)),
      add_nonneg h2 (mul_nonneg (hpow _ _ (le_max_left _ _)) hl)⟩

theorem light_fold_nonneg (m : CMath α) (hpow : ∀ x y : α, 0 ≤ x → 0 ≤ m.powf x y)
    (spheres : List (Sphere α)) (dir point N : Vec3 α) (material : Material α)
    (lights : List (Light α)) (hl : ∀ l ∈ lights, 0 ≤ l.intensity) :
    ∀ acc : α × α, 0 ≤ acc.1 → 0 ≤ acc.2 →
      0 ≤ (lights.foldl (light_step m spheres dir point N material) acc).1 ∧
      0 ≤ (lights.foldl (light_step m spheres dir point N material) acc).2 := by
  induction lights with
  | nil => intro acc h1 h2; exact ⟨h1, h2⟩
  | cons l ls ih =>
    intro acc h1 h2
    rw [List.foldl_cons]
    obtain ⟨a1, a2⟩ := light_step_nonneg m hpow spheres dir point N material acc l
      (hl l (List.mem_cons_self l ls)) h1 h2
    exact ih (fun l2 h => hl l2 (List.mem_cons_of_mem l h)) _ a1 a2

theorem combine_nonneg (material : Material α) (a b : α) (rc fc : Vec3 α)
    (ha : 0 ≤ a) (hb : 0 ≤ b)
    (hal : 0 ≤ material.albedo.x ∧ 0 ≤ material.albedo.y ∧ 0 ≤ material.albedo.z ∧
      0 ≤ material.albedo.w)
    (hdc : 0 ≤ material.diffuse_color.x ∧ 0 ≤ material.diffuse_color.y ∧
      0 ≤ material.diffuse_color.z)
    (hrc : 0 ≤ rc.x ∧ 0 ≤ rc.y ∧ 0 ≤ rc.z) (hfc : 0 ≤ fc.x ∧ 0 ≤ fc.y ∧ 0 ≤ fc.z) :
    0 ≤ (combine material a b rc fc).x ∧ 0 ≤ (combine material a b rc fc).y ∧
    0 ≤ (combine material a b rc fc).z := by
  obtain ⟨a0, a1, a2, a3⟩ := hal
  obtain ⟨d0, d1, d2⟩ := hdc
  obtain ⟨r0, r1, r2⟩ := hrc
  obtain ⟨f0, f1, f2⟩ := hfc
  simp only [combine, Vec3.add, Vec3.scale, Vec4.get]
  refine ⟨?_, ?_, ?_⟩ <;> positivity

theorem background_nonneg : 0 ≤ (background : Vec3 α).x ∧ 0 ≤ (background : Vec3 α).y ∧
    0 ≤ (background : Vec3 α).z := by
  simp only [background]
  norm_num

theorem cast_ray_nonneg (m : CMath α) (hpow : ∀ x y : α, 0 ≤ x → 0 ≤ m.powf x y)
    (spheres : List (Sphere α)) (lights : List (Light α))
    (hl : ∀ l ∈ lights, 0 ≤ l.intensity)
    (hs : ∀ s ∈ spheres,
      (0 ≤ s.material.albedo.x ∧ 0 ≤ s.material.albedo.y ∧ 0 ≤ s.material.albedo.z ∧
        0 ≤ s.material.albedo.w) ∧
      (0 ≤ s.material.diffuse_color.x ∧ 0 ≤ s.material.diffuse_color.y ∧
        0 ≤ s.material.diffuse_color.z))
    (n : Nat) :
    ∀ (depth : Nat) (orig dir : Vec3 α), 5 - depth ≤ n →
      0 ≤ (cast_ray m orig dir spheres lights depth).x ∧
      0 ≤ (cast_ray m orig dir spheres lights depth).y ∧
      0 ≤ (cast_ray m orig dir spheres lights depth).z := by
  induction n with
  | zero =>
    intro depth orig dir h
    rw [cast_ray_cutoff m orig dir spheres lights depth (by omega)]
    exact background_nonneg
  | succ n ih =>
    intro depth orig dir h
    by_cases h5 : 5 ≤ depth
    · rw [cast_ray_cutoff m orig dir spheres lights depth h5]
      exact background_nonneg
    · have hd : depth ≤ 4 := by omega
      by_cases hf : (scene_intersect m orig dir spheres Vec3.zero Vec3.zero
          Material.default).found = true
      · rw [cast_ray_hit m orig dir spheres lights depth _ rfl hd hf]
        obtain ⟨i, s, t, hi, _, _, _, _, heq⟩ :=
          scene_intersect_selected m orig dir spheres Vec3.zero Vec3.zero Material.default hf
        have hmem : s ∈ spheres := List.mem_iff_getElem?.mpr ⟨i, hi⟩
        have hmat : (scene_intersect m orig dir spheres Vec3.zero Vec3.zero
            Material.default).material = s.material := by rw [heq]
        have hn : 5 - (depth + 1) ≤ n := by omega
        obtain ⟨l1, l2⟩ := light_fold_nonneg m hpow spheres dir
          (scene_intersect m orig dir spheres Vec3.zero Vec3.zero Material.default).hit
          (scene_intersect m orig dir spheres Vec3.zero Vec3.zero Material.default).N
          (scene_intersect m orig dir spheres Vec3.zero Vec3.zero Material.default).material
          lights hl (0, 0) le_rfl le_rfl
        apply combine_nonneg
        · exact l1
        · exact l2
        · rw [hmat]; exact (hs s hmem).1
        · rw [hmat]; exact (hs s hmem).2
        · exact ih (depth + 1) _ _ hn
        · exact ih (depth + 1) _ _ hn
      · have hff : (scene_intersect m orig dir spheres Vec3.zero Vec3.zero
            Material.default).found = false := by simpa using hf
        rw [cast_ray_miss m orig dir spheres lights depth hff]
        exact background_nonneg

/-- C18: for every scene in which all light intensities, all four albedo weights and all
diffuse colour channels are non-negative, and for every ray and depth, every channel of the
colour `cast_ray` returns is non-negative (given that `powf` of a non-negative base is
non-negative). -/
theorem C18_cast_ray_nonneg (m : CMath α) (hpow : ∀ x y : α, 0 ≤ x → 0 ≤ m.powf x y)
    (orig dir : Vec3 α) (spheres : List (Sphere α)) (lights : List (Light α)) (depth : Nat)
    (hl : ∀ l ∈ lights, 0 ≤ l.intensity)
    (hs : ∀ s ∈ spheres,
      (0 ≤ s.material.albedo.x ∧ 0 ≤ s.material.albedo.y ∧ 0 ≤ s.material.albedo.z ∧
        0 ≤ s.material.albedo.w) ∧
      (0 ≤ s.material.diffuse_color.x ∧ 0 ≤ s.material.diffuse_color.y ∧
        0 ≤ s.material.diffuse_color.z)) :
    0 ≤ (cast_ray m orig dir spheres lights depth).x ∧
    0 ≤ (cast_ray m orig dir spheres lights depth).y ∧
    0 ≤ (cast_ray m orig dir spheres lights depth).z :=
  cast_ray_nonneg m hpow spheres lights hl hs (5 - depth) depth orig dir le_rfl

/-- An instance of C18: the primary ray along `(0, 0, -1)` in the scene of one sphere (albedo
`(0, 0, 0, 1)`, diffuse colour `(1, 0, 0)`) and one light of intensity `1`. -/
theorem C18_cast_ray_nonneg_witness :
    ((∀ x y : ℝ, 0 ≤ x → 0 ≤ Real.rpow x y) ∧
      (∀ l ∈ [(⟨⟨0, 3, 0⟩, 1⟩ : Light ℝ)], 0 ≤ l.intensity) ∧
      (∀ s ∈ [(⟨⟨3, 0, -10⟩, 5, ⟨1 / 2, ⟨0, 0, 0, 1⟩, ⟨1, 0, 0⟩, 2⟩⟩ : Sphere ℝ)],
        (0 ≤ s.material.albedo.x ∧ 0 ≤ s.material.albedo.y ∧ 0 ≤ s.material.albedo.z ∧
          0 ≤ s.material.albedo.w) ∧
        (0 ≤ s.material.diffuse_color.x ∧ 0 ≤ s.material.diffuse_color.y ∧
          0 ≤ s.material.diffuse_color.z))) ∧
    (0 ≤ (cast_ray (⟨Real.sqrt, Real.rpow, Real.tan, Real.pi⟩ : CMath ℝ) ⟨0, 0, 0⟩ ⟨0, 0, -1⟩
        [⟨⟨3, 0, -10⟩, 5, ⟨1 / 2, ⟨0, 0, 0, 1⟩, ⟨1, 0, 0⟩, 2⟩⟩] [⟨⟨0, 3, 0⟩, 1⟩] 0).x ∧
      0 ≤ (cast_ray (⟨Real.sqrt, Real.rpow, Real.tan, Real.pi⟩ : CMath ℝ) ⟨0, 0, 0⟩ ⟨0, 0, -1⟩
        [⟨⟨3, 0, -10⟩, 5, ⟨1 / 2, ⟨0, 0, 0, 1⟩, ⟨1, 0, 0⟩, 2⟩⟩] [⟨⟨0, 3, 0⟩, 1⟩] 0).y ∧
      0 ≤ (cast_ray (⟨Real.sqrt, Real.rpow, Real.tan, Real.pi⟩ : CMath ℝ) ⟨0, 0, 0⟩ ⟨0, 0, -1⟩
        [⟨⟨3, 0, -10⟩, 5, ⟨1 / 2, ⟨0, 0, 0, 1⟩, ⟨1, 0, 0⟩, 2⟩⟩] [⟨⟨0, 3, 0⟩, 1⟩] 0).z) := by
  have hpow : ∀ x y : ℝ, 0 ≤ x → 0 ≤ Real.rpow x y := fun x y hx => Real.rpow_nonneg hx y
  have hl : ∀ l ∈ [(⟨⟨0, 3, 0⟩, 1⟩ : Light ℝ)], 0 ≤ l.intensity := by
    intro l h
    rw [List.mem_singleton] at h
    rw [h]
    norm_num
  have hs : ∀ s ∈ [(⟨⟨3, 0, -10⟩, 5, ⟨1 / 2, ⟨0, 0, 0, 1⟩, ⟨1, 0, 0⟩, 2⟩⟩ : Sphere ℝ)],
      (0 ≤ s.material.albedo.x ∧ 0 ≤ s.material.albedo.y ∧ 0 ≤ s.material.albedo.z ∧
        0 ≤ s.material.albedo.w) ∧
      (0 ≤ s.material.diffuse_color.x ∧ 0 ≤ s.material.diffuse_color.y ∧
        0 ≤ s.material.diffuse_color.z) := by
    intro s h
    rw [List.mem_singleton] at h
    rw [h]
    norm_num
  exact ⟨⟨hpow, hl, hs⟩,
    C18_cast_ray_nonneg (⟨Real.sqrt, Real.rpow, Real.tan, Real.pi⟩ : CMath ℝ) hpow ⟨0, 0, 0⟩
      ⟨0, 0, -1⟩ [⟨⟨3, 0, -10⟩, 5, ⟨1 / 2, ⟨0, 0, 0, 1⟩, ⟨1, 0, 0⟩, 2⟩⟩] [⟨⟨0, 3, 0⟩, 1⟩] 0
      hl hs⟩

theorem slot_index_eq (width height i j : Nat) (hW : width < 2147483648)
    (hH : height < 2147483648) (hi : i < width) (hj : j < height) :
    slot_index width i j = i + j * width := by
  unfold slot_index
  apply Nat.mod_eq_of_lt
  have h1 : j * width ≤ 2147483648 * 2147483648 :=
    Nat.mul_le_mul (by omega) (by omega)
  omega

theorem slot_lt (width height i j : Nat) (hi : i < width) (hj : j < height) :
    i + j * width < width * height := by
  calc i + j * width < width + j * width := by omega
    _ = width * (j + 1) := by ring
    _ ≤ width * height := Nat.mul_le_mul_left _ hj

/-- Without overflow of the `int` product `width * height`, the index `i + j * width` maps
the pixels one-to-one onto the framebuffer indices: every write of `render` is in bounds, no
two pixels write the same slot, every slot is written, and after the rendering loop the slot
of pixel `(i, j)` holds the colour computed for `(i, j)`. -/
theorem render_slots_bijective (m : CMath α) (spheres : List (Sphere α))
    (lights : List (Light α)) (width height : Nat) (hw : 0 < width)
    (hov : width * height < 2147483648) (hW : width < 2147483648)
    (hH : height < 2147483648) :
    framebuffer_size width height = width * height ∧
    (∀ i j, i < width → j < height →
      slot_index width i j = i + j * width ∧
      slot_index width i j < framebuffer_size width height) ∧
    (∀ i j i2 j2, i < width → j < height → i2 < width → j2 < height →
      slot_index width i j = slot_index width i2 j2 → i = i2 ∧ j = j2) ∧
    (∀ k, k < framebuffer_size width height →
      ∃ i j, i < width ∧ j < height ∧ slot_index width i j = k) ∧
    (∀ i j, i < width → j < height →
      (render_loop m spheres lights width height)[slot_index width i j]? =
        some (render_pixel m spheres lights width height i j)) := by
  have hsize := framebuffer_size_eq width height hov
  have hmod : ∀ i j, i < width → (i + j * width) % width = i := by
    intro i j hi
    rw [Nat.add_mul_mod_self_right, Nat.mod_eq_of_lt hi]
  have hdiv : ∀ i j, i < width → (i + j * width) / width = j := by
    intro i j hi
    rw [Nat.add_mul_div_right _ _ hw, Nat.div_eq_of_lt hi, Nat.zero_add]
  refine ⟨hsize, ?_, ?_, ?_, ?_⟩
  · intro i j hi hj
    rw [slot_index_eq width height i j hW hH hi hj, hsize]
    exact ⟨rfl, slot_lt width height i j hi hj⟩
  · intro i j i2 j2 hi hj hi2 hj2 h
    rw [slot_index_eq width height i j hW hH hi hj,
      slot_index_eq width height i2 j2 hW hH hi2 hj2] at h
    have h1 := hmod i j hi
    have h2 := hdiv i j hi
    rw [h, hmod i2 j2 hi2] at h1
    rw [h, hdiv i2 j2 hi2] at h2
    exact ⟨h1.symm, h2.symm⟩
  · intro k hk
    rw [hsize] at hk
    have hkw : k % width < width := Nat.mod_lt k hw
    have hkh : k / width < height := by
      rw [Nat.div_lt_iff_lt_mul hw, Nat.mul_comm]; exact hk
    refine ⟨k % width, k / width, hkw, hkh, ?_⟩
    rw [slot_index_eq width height _ _ hW hH hkw hkh]
    have := Nat.div_add_mod k width
    rw [Nat.mul_comm] at this
    omega
  · intro i j hi hj
    rw [slot_index_eq width height i j hW hH hi hj]
    have hlt := slot_lt width height i j hi hj
    rw [render_loop_getElem? m spheres lights width height _ hlt (by rw [hsize]; exact hlt),
      hmod i j hi, hdiv i j hi]

/-- C16 fails on the code at `width = height = 65536`: the `int` product `width * height`
overflows, the framebuffer gets `0` slots (and whatever value an `int` can hold, fewer slots
than there are pixels, or more than can be allocated), so that the write of pixel `(0, 0)` at
index `0` is out of bounds and no slot is written. -/
theorem C16_framebuffer_overflow (m : CMath α) (spheres : List (Sphere α))
    (lights : List (Light α)) :
    framebuffer_size 65536 65536 = 0 ∧
    slot_index 65536 0 0 = 0 ∧
    ¬ slot_index 65536 0 0 < framebuffer_size 65536 65536 ∧
    render_loop m spheres lights 65536 65536 = [] ∧
    (∀ v : Int, -2147483648 ≤ v → v < 2147483648 →
      to_size_t v < 65536 * 65536 ∨ 9223372036854775808 ≤ to_size_t v) := by
  have h0 : framebuffer_size 65536 65536 = 0 := by decide
  refine ⟨h0, by decide, by decide, ?_, ?_⟩
  · apply List.eq_nil_of_length_eq_zero
    rw [render_loop_length, h0]
  · intro v h1 h2
    unfold to_size_t
    omega

/-- An instance of the last part of C16's theorem: the value `0`, to which the product wraps. -/
theorem C16_framebuffer_overflow_witness :
    ((-2147483648 : Int) ≤ 0 ∧ (0 : Int) < 2147483648) ∧
    (to_size_t 0 < 65536 * 65536 ∨ 9223372036854775808 ≤ to_size_t 0) :=
  ⟨⟨by decide, by decide⟩,
    (C16_framebuffer_overflow ratMath [] []).2.2.2.2 0 (by decide) (by decide)⟩

end Theorems

end RayTracer
